import Mathlib

/-!
ISOBMFF: the parser facade of `ISOBMFF/source/Parser.cpp`

A shallow embedding of `Parser` and `Parser::IMPL`: the box registry
(`_types`), the options word (`_options`), the info map (`_info`), the
top-level sniff of `Parse( BinaryStream & )` and `CreateBox`.

Conventions of the embedding

* `std::string` is `String`, one `Char` standing for one C++ `char`;
  `size()` is `String.length`.
* `std::map< std::string, V >` is `StdMap V`: the list of its entries in the
  order a range-for visits them; the invariant of the container (strictly
  increasing keys) is the predicate `KeysSorted`.
* `std::shared_ptr< T >` is `Option T`, `nullptr` being `none`;
  `std::function< R() >` is `Option (Unit → R)`, the empty function being `none`.
* `void *` is an address (`Nat`), `nullptr` being `0`.
* `uint64_t` is `Nat` reduced modulo `2 ^ 64`.
* A member function that can throw returns the exception (if any) next to the
  state of the object after the call: `Except Exception Unit × IMPL`.
-/

namespace ISOBMFF

/-! ## std::string ordering and std::map -/

/-- Lexicographic comparison of two character sequences (`std::less< std::string >`). -/
def charsLt : List Char → List Char → Bool
  | _, [] => false
  | [], _ :: _ => true
  | a :: as, b :: bs => decide (a < b) || (a == b && charsLt as bs)

/-- Key order of a `std::map< std::string, V >`. -/
def keyLt (a b : String) : Bool := charsLt a.toList b.toList

/-- Entries of a `std::map`: strictly increasing keys. -/
def KeysSorted {V : Type} (l : List (String × V)) : Prop :=
  l.Pairwise (fun a b => keyLt a.1 b.1 = true)

instance {V : Type} (l : List (String × V)) : Decidable (KeysSorted l) := by
  unfold KeysSorted; infer_instance

/-- `m.find( k )` on the entries: the value of the entry with key `k`, if any. -/
def findEntries {V : Type} (k : String) : List (String × V) → Option V
  | [] => none
  | p :: rest => if p.1 = k then some p.2 else findEntries k rest

/-- `m[ k ] = v` on the entries: overwrite the entry with key `k`, or insert it in key order. -/
def assignEntries {V : Type} (k : String) (v : V) : List (String × V) → List (String × V)
  | [] => [(k, v)]
  | p :: rest =>
    if keyLt k p.1 then (k, v) :: p :: rest
    else if p.1 = k then (k, v) :: rest
    else p :: assignEntries k v rest

/-- `m.erase( k )` on the entries: drop the entry with key `k`, if any. -/
def eraseEntries {V : Type} (k : String) : List (String × V) → List (String × V)
  | [] => []
  | p :: rest => if p.1 = k then rest else p :: eraseEntries k rest


/-- The model of `std::map< std::string, V >`: its entries in iteration order. -/
abbrev StdMap (V : Type) := List (String × V)

namespace StdMap

variable {V : Type}

/-- `m.find( k )`: `none` stands for `m.end()`. -/
def find (m : StdMap V) (k : String) : Option V := findEntries k m

/-- `m[ k ] = v`. -/
def assign (m : StdMap V) (k : String) (v : V) : StdMap V := assignEntries k v m

/-- `m.erase( k )`. -/
def erase (m : StdMap V) (k : String) : StdMap V := eraseEntries k m

/-- Reading `m[ k ]`: the stored value, or a value-initialised entry inserted under `k`. -/
def subscript (m : StdMap V) (k : String) (dflt : V) : V × StdMap V :=
  match m.find k with
  | some v => (v, m)
  | none => (dflt, m.assign k dflt)

/-- The keys in iteration order. -/
def keys (m : StdMap V) : List String := m.map Prod.fst

end StdMap

/-! ## Boxes -/

/-- What a `std::shared_ptr< Box >` made in `Parser.cpp` points to: the class of
the object and, for the two classes constructed from a name, that name. -/
inductive Box where
  /-- The class `Box` itself: `std::make_shared< Box >( type )`. -/
  | Box (type : String)
  /-- The class `ContainerBox`: `std::make_shared< ContainerBox >( type )`. -/
  | ContainerBox (type : String)
  | FTYP | MVHD | TKHD | META | HDLR | MDHD | PITM | IINF | DREF | URL | URN
  | ILOC | IREF | INFE | IROT | HVCC | DIMG | THMB | CDSC | COLR | ISPE | IPMA
  | PIXI | IPCO | STSD | STTS | FRMA | SCHM
  /-- An object of a class derived from `Box` outside the library, as a
  factory passed to `RegisterBox` may return. -/
  | derived (cls : String)
  deriving DecidableEq

/-- The type `std::function< std::shared_ptr< Box >() >`. -/
abbrev Factory := Option (Unit → Option Box)

/-- A node of the parsed tree (spec §3): the object made by `CreateBox`, the
type read from the header, the size on the wire, the offset of the header, the
body bytes of a leaf and the children of a container. -/
inductive BoxNode where
  | mk (box : Box) (type : String) (size_on_wire offset : Nat)
      (body : List UInt8) (children : List BoxNode)

/-- The root `File` (spec §3): the top-level boxes of the stream. -/
structure File where
  /-- The top-level boxes, in source order. -/
  children : List BoxNode

/-- What `Parser.cpp` throws, kept apart from what comes out of `File::ReadData`. -/
inductive Exception where
  /-- A `std::runtime_error( what )` thrown in `Parser.cpp`. -/
  | runtime_error (what : String)
  /-- An exception leaving `File::ReadData`. -/
  | readData (what : String)
  deriving DecidableEq

deriving instance DecidableEq for Except

/-- The result of a call that may throw, next to the object after the call. -/
abbrev Outcome (σ : Type) := Except Exception Unit × σ

/-! ## Byte streams -/

/-- Modelled from the spec: `BinaryStream` (§4.1 ByteSource), whose sources are
not part of `Parser.cpp`. A stream is its bytes and a read position;
`fileBacked` tells the two realisations apart: a failing read of the
file-backed one may leave the bytes it could read in the destination, the
memory-backed one leaves the destination untouched. -/
structure BinaryStream where
  /-- All bytes of the source. -/
  data : List UInt8
  /-- The read position. -/
  pos : Nat
  /-- File-backed (true) or memory-backed (false). -/
  fileBacked : Bool

namespace BinaryStream

/-- Modelled from the spec: `has_bytes()` of §4.1, bytes remain after the read position. -/
def HasBytesAvailable (stream : BinaryStream) : Bool := decide (stream.pos < stream.data.length)

/-- Modelled from the spec: `Get( buf, pos, length )`, the positioned read of
§4.1: it reads exactly `length` bytes at the absolute offset `pos` into `buf`
or throws; the read position is left where it was. The second component is
`buf` after the call. -/
def Get (stream : BinaryStream) (buf : List UInt8) (pos length : Nat) :
    Except Exception Unit × List UInt8 :=
  if pos + length ≤ stream.data.length then
    (.ok (), (stream.data.drop pos).take length ++ buf.drop length)
  else
    let got := if stream.fileBacked then (stream.data.drop pos).take length else []
    (.error (.readData "UnexpectedEOF"), got ++ buf.drop got.length)

end BinaryStream

/-- A string literal as the bytes `memcmp` sees. -/
def cstr (s : String) : List UInt8 := s.toList.map (fun c => UInt8.ofNat c.toNat)

/-- The `std::string` made of the given bytes. -/
def fourCC (bytes : List UInt8) : String := String.mk (bytes.map (fun b => Char.ofNat b.toNat))

/-- The function `memcmp( a, b, n )`: the sign of the first difference among the first `n` bytes. -/
def memcmp : List UInt8 → List UInt8 → Nat → Int
  | _, _, 0 => 0
  | [], [], _ + 1 => 0
  | [], _ :: _, _ + 1 => -1
  | _ :: _, [], _ + 1 => 1
  | a :: as, b :: bs, n + 1 =>
    if a.toNat < b.toNat then -1 else if b.toNat < a.toNat then 1 else memcmp as bs n

/-! ## Parser::IMPL -/

namespace Parser

/-- The enumeration `Parser::StringType`. -/
inductive StringType where
  | NULLTerminated
  | Pascal
  deriving DecidableEq

/-- The class `Parser::IMPL`. -/
structure IMPL where
  /-- `std::shared_ptr< File >` -/
  _file : Option File
  /-- `std::string` -/
  _path : String
  /-- `std::map< std::string, std::function< std::shared_ptr< Box >() > >` -/
  _types : StdMap Factory
  /-- `Parser::StringType` -/
  _stringType : StringType
  /-- `uint64_t` -/
  _options : Nat
  /-- `std::map< std::string, void * >` -/
  _info : StdMap Nat

/-- The null pointer of type `void *`. -/
def nullptr : Nat := 0

/-- Source: `Parser::IMPL::RegisterBox`. -/
def IMPL.RegisterBox (self : IMPL) (type : String) (createBox : Factory) : Outcome IMPL :=
  if type.length ≠ 4 then
    (.error (.runtime_error "Box name should be 4 characters long"), self)
  else
    (.ok (), { self with _types := self._types.assign type createBox })

/-- Source: `Parser::IMPL::RegisterContainerBox`. -/
def IMPL.RegisterContainerBox (self : IMPL) (type : String) : Outcome IMPL :=
  self.RegisterBox type (some (fun _ => some (Box.ContainerBox type)))

/-- Statements in sequence: the first exception ends the run. -/
def runAll : List (IMPL → Outcome IMPL) → IMPL → Outcome IMPL
  | [], self => (.ok (), self)
  | stmt :: rest, self =>
    match stmt self with
    | (.ok _, self) => runAll rest self
    | (.error e, self) => (.error e, self)

/-- Source: `Parser::IMPL::RegisterDefaultBoxes`. -/
def IMPL.RegisterDefaultBoxes (self : IMPL) : Outcome IMPL :=
  runAll
    [ (IMPL.RegisterContainerBox · "moov"),
      (IMPL.RegisterContainerBox · "trak"),
      (IMPL.RegisterContainerBox · "edts"),
      (IMPL.RegisterContainerBox · "mdia"),
      (IMPL.RegisterContainerBox · "minf"),
      (IMPL.RegisterContainerBox · "stbl"),
      (IMPL.RegisterContainerBox · "mvex"),
      (IMPL.RegisterContainerBox · "moof"),
      (IMPL.RegisterContainerBox · "traf"),
      (IMPL.RegisterContainerBox · "mfra"),
      (IMPL.RegisterContainerBox · "meco"),
      (IMPL.RegisterContainerBox · "mere"),
      (IMPL.RegisterContainerBox · "dinf"),
      (IMPL.RegisterContainerBox · "ipro"),
      (IMPL.RegisterContainerBox · "sinf"),
      (IMPL.RegisterContainerBox · "iprp"),
      (IMPL.RegisterContainerBox · "fiin"),
      (IMPL.RegisterContainerBox · "paen"),
      (IMPL.RegisterContainerBox · "strk"),
      (IMPL.RegisterContainerBox · "tapt"),
      (IMPL.RegisterContainerBox · "schi"),
      (IMPL.RegisterBox · "ftyp" (some (fun _ => some Box.FTYP))),
      (IMPL.RegisterBox · "mvhd" (some (fun _ => some Box.MVHD))),
      (IMPL.RegisterBox · "tkhd" (some (fun _ => some Box.TKHD))),
      (IMPL.RegisterBox · "meta" (some (fun _ => some Box.META))),
      (IMPL.RegisterBox · "hdlr" (some (fun _ => some Box.HDLR))),
      (IMPL.RegisterBox · "mdhd" (some (fun _ => some Box.MDHD))),
      (IMPL.RegisterBox · "pitm" (some (fun _ => some Box.PITM))),
      (IMPL.RegisterBox · "iinf" (some (fun _ => some Box.IINF))),
      (IMPL.RegisterBox · "dref" (some (fun _ => some Box.DREF))),
      (IMPL.RegisterBox · "url " (some (fun _ => some Box.URL))),
      (IMPL.RegisterBox · "urn " (some (fun _ => some Box.URN))),
      (IMPL.RegisterBox · "iloc" (some (fun _ => some Box.ILOC))),
      (IMPL.RegisterBox · "iref" (some (fun _ => some Box.IREF))),
      (IMPL.RegisterBox · "infe" (some (fun _ => some Box.INFE))),
      (IMPL.RegisterBox · "irot" (some (fun _ => some Box.IROT))),
      (IMPL.RegisterBox · "hvcC" (some (fun _ => some Box.HVCC))),
      (IMPL.RegisterBox · "dimg" (some (fun _ => some Box.DIMG))),
      (IMPL.RegisterBox · "thmb" (some (fun _ => some Box.THMB))),
      (IMPL.RegisterBox · "cdsc" (some (fun _ => some Box.CDSC))),
      (IMPL.RegisterBox · "colr" (some (fun _ => some Box.COLR))),
      (IMPL.RegisterBox · "ispe" (some (fun _ => some Box.ISPE))),
      (IMPL.RegisterBox · "ipma" (some (fun _ => some Box.IPMA))),
      (IMPL.RegisterBox · "pixi" (some (fun _ => some Box.PIXI))),
      (IMPL.RegisterBox · "ipco" (some (fun _ => some Box.IPCO))),
      (IMPL.RegisterBox · "stsd" (some (fun _ => some Box.STSD))),
      (IMPL.RegisterBox · "stts" (some (fun _ => some Box.STTS))),
      (IMPL.RegisterBox · "frma" (some (fun _ => some Box.FRMA))),
      (IMPL.RegisterBox · "schm" (some (fun _ => some Box.SCHM))) ]
    self

/-- A constructor that throws leaves no object. -/
def constructed : Outcome IMPL → Except Exception IMPL
  | (.ok _, self) => .ok self
  | (.error e, _) => .error e

/-- Source: `Parser::IMPL::IMPL()`. -/
def IMPL.ctor : Except Exception IMPL :=
  constructed (IMPL.RegisterDefaultBoxes
    { _file := none, _path := "", _types := [], _stringType := StringType.NULLTerminated,
      _options := 0, _info := [] })

/-- Source: `Parser::IMPL::IMPL( const IMPL & o )`. -/
def IMPL.copy_ctor (o : IMPL) : Except Exception IMPL :=
  constructed (IMPL.RegisterDefaultBoxes
    { _file := o._file, _path := o._path, _types := o._types, _stringType := o._stringType,
      _options := o._options, _info := o._info })

/-! ## Parser -/

/-- Source: `Parser::Parser()`. -/
def ctor : Except Exception IMPL := IMPL.ctor

/-- Source: `Parser::Parser( const Parser & o )`. -/
def copy_ctor (o : IMPL) : Except Exception IMPL := IMPL.copy_ctor o

/-- Source: `Parser::RegisterContainerBox`. -/
def RegisterContainerBox (self : IMPL) (type : String) : Outcome IMPL :=
  self.RegisterContainerBox type

/-- Source: `Parser::RegisterBox`. -/
def RegisterBox (self : IMPL) (type : String) (createBox : Factory) : Outcome IMPL :=
  self.RegisterBox type createBox

/-- The range-for of `Parser::CreateBox`: `some r` when the loop returns `r`,
`none` when it runs to the end. -/
def CreateBox.loop (type : String) : List (String × Factory) → Option (Option Box)
  | [] => none
  | p :: rest =>
    match p.2 with
    | some createBox => if p.1 = type then some (createBox ()) else CreateBox.loop type rest
    | none => CreateBox.loop type rest

/-- Source: `Parser::CreateBox`. -/
def CreateBox (self : IMPL) (type : String) : Option Box :=
  match CreateBox.loop type self._types with
  | some box => box
  | none => some (Box.Box type)

/-- What `File::ReadData( parser, stream )` leaves behind: the `File` it was
called on, the info map of the parser, and the exception it threw, if any. -/
structure ReadDataResult where
  /-- The `File` after the call. -/
  file : File
  /-- The map `_info` of the parser after the call. -/
  info : StdMap Nat
  /-- The exception that left the call. -/
  thrown : Option String

/-- The member `File::ReadData`, which is not part of `Parser.cpp`: from the
parser and the stream to what the call leaves behind. -/
abbrev ReadDataFn := IMPL → BinaryStream → ReadDataResult

/-- Source: `Parser::Parse( BinaryStream & )`, over the `File::ReadData` it calls. -/
def Parse (ReadData : ReadDataFn) (self : IMPL) (stream : BinaryStream) : Outcome IMPL :=
  let n : List UInt8 := [0, 0, 0, 0]
  if stream.HasBytesAvailable = false then
    (.error (.runtime_error "Cannot read file"), self)
  else
    -- try { stream.Get( n, 4, 4 ); } catch( ... ) {}
    let n := (stream.Get n 4 4).2
    if memcmp n (cstr "ftyp") 4 ≠ 0
        ∧ memcmp n (cstr "sinf") 4 ≠ 0
        ∧ memcmp n (cstr "wide") 4 ≠ 0
        ∧ memcmp n (cstr "free") 4 ≠ 0
        ∧ memcmp n (cstr "skip") 4 ≠ 0
        ∧ memcmp n (cstr "mdat") 4 ≠ 0
        ∧ memcmp n (cstr "moov") 4 ≠ 0
        ∧ memcmp n (cstr "pnot") 4 ≠ 0 then
      (.error (.runtime_error "Data is not an ISO media file"), self)
    else
      let self := { self with _path := "", _file := some { children := [] } }
      if stream.HasBytesAvailable then
        let r := ReadData self stream
        let self := { self with _file := some r.file, _info := r.info }
        match r.thrown with
        | none => (.ok (), self)
        | some what => (.error (.readData what), self)
      else
        (.ok (), self)

/-- Source: `Parser::Parse( const std::vector< uint8_t > & )`. -/
def Parse_data (ReadData : ReadDataFn) (self : IMPL) (data : List UInt8) : Outcome IMPL :=
  Parse ReadData self { data := data, pos := 0, fileBacked := false }

/-- Source: `Parser::GetFile`. -/
def GetFile (self : IMPL) : Option File := self._file

/-- Source: `Parser::GetPreferredStringType`. -/
def GetPreferredStringType (self : IMPL) : StringType := self._stringType

/-- Source: `Parser::SetPreferredStringType`. -/
def SetPreferredStringType (self : IMPL) (value : StringType) : IMPL :=
  { self with _stringType := value }

/-- Source: `Parser::GetOptions`. -/
def GetOptions (self : IMPL) : Nat := self._options

/-- Source: `Parser::SetOptions`. -/
def SetOptions (self : IMPL) (value : Nat) : IMPL :=
  { self with _options := value % 2 ^ 64 }

/-- Source: `Parser::AddOption`; `option` is the value of the enumerator. -/
def AddOption (self : IMPL) (option : Nat) : IMPL :=
  { self with _options := (self._options ||| option % 2 ^ 64) % 2 ^ 64 }

/-- Source: `Parser::RemoveOption`; `~x` on `uint64_t` is `2 ^ 64 - 1 - x`. -/
def RemoveOption (self : IMPL) (option : Nat) : IMPL :=
  { self with _options := (self._options &&& (2 ^ 64 - 1 - option % 2 ^ 64)) % 2 ^ 64 }

/-- Source: `Parser::HasOption`. -/
def HasOption (self : IMPL) (option : Nat) : Bool :=
  (GetOptions self &&& option % 2 ^ 64) != 0

/-- Source: `Parser::GetInfo`; the member is not `const`, so the parser after the
call is returned too. -/
def GetInfo (self : IMPL) (key : String) : Nat × IMPL :=
  if self._info.find key = none then
    (nullptr, self)
  else
    let r := self._info.subscript key nullptr
    (r.1, { self with _info := r.2 })

/-- Source: `Parser::SetInfo`. -/
def SetInfo (self : IMPL) (key : String) (value : Nat) : IMPL :=
  if value = nullptr then
    { self with _info := self._info.erase key }
  else
    { self with _info := self._info.assign key value }

end Parser

/-! ## The framing behind File::ReadData -/

/-- Big-endian unsigned integer made of the given bytes. -/
def bigEndian (bytes : List UInt8) : Nat := bytes.foldl (fun acc b => acc * 256 + b.toNat) 0

/-- Modelled from the spec: the BoxFramer and ContainerDecoder (§4.4, §4.5, §7)
behind `File::ReadData` and `ContainerBox::ReadData`, whose sources are not
part of `Parser.cpp`. Starting at the absolute offset `offset` and up to the
parent bound `bound`, each header is read (`size_u32`, the type, `size_u64`
when `size_u32 == 1`, to the end of the parent when `size_u32 == 0`, 16 more
header bytes for `uuid`), the node is made by `CreateBox`, a container recurses
on its body and any other node keeps its body bytes; the typed decoders of
§4.6 are not part of the model. A framing error ends the whole walk. `fuel`
bounds the number of calls; every call consumes at least 8 bytes. -/
def readBoxes (parser : Parser.IMPL) (data : List UInt8) :
    Nat → Nat → Nat → Except String (List BoxNode)
  | 0, _, _ => .error "OutOfFuel"
  | fuel + 1, offset, bound =>
    if bound ≤ offset then .ok []
    else if bound - offset < 8 then .error "UnexpectedEOF"
    else
      let size_u32 := bigEndian ((data.drop offset).take 4)
      let type := fourCC ((data.drop (offset + 4)).take 4)
      if size_u32 = 1 ∧ bound - offset < 16 then .error "UnexpectedEOF"
      else
        let total :=
          if size_u32 = 1 then bigEndian ((data.drop (offset + 8)).take 8)
          else if size_u32 = 0 then bound - offset
          else size_u32
        let header := (if size_u32 = 1 then 16 else 8) + (if type = "uuid" then 16 else 0)
        if total < header then .error "InvalidSize"
        else if bound - offset < total then .error "InvalidSize"
        else
          let body := (data.drop (offset + header)).take (total - header)
          match Parser.CreateBox parser type with
          | none => readBoxes parser data fuel (offset + total) bound
          | some (Box.ContainerBox name) =>
            match readBoxes parser data fuel (offset + header) (offset + total) with
            | .error e => .error e
            | .ok children =>
              match readBoxes parser data fuel (offset + total) bound with
              | .error e => .error e
              | .ok siblings =>
                .ok (BoxNode.mk (Box.ContainerBox name) type total offset [] children :: siblings)
          | some box =>
            match readBoxes parser data fuel (offset + total) bound with
            | .error e => .error e
            | .ok siblings => .ok (BoxNode.mk box type total offset body [] :: siblings)

/-- Modelled from the spec: `File::ReadData( parser, stream )`, the top-level
boxes of the stream read as a container whose bound is the stream length
(§4.7). The spec does not say what the `File` holds after a framing error;
the model leaves it as it was. The info map is not touched. -/
def File.ReadData : Parser.ReadDataFn := fun parser stream =>
  match readBoxes parser stream.data (stream.data.length + 1) stream.pos stream.data.length with
  | .ok children => { file := { children := children }, info := parser._info, thrown := none }
  | .error e =>
    { file := (parser._file.getD { children := [] }), info := parser._info, thrown := some e }



/-! ## Vocabulary of the statements -/

/-- The accepted top-level box types of the sniff (spec §6). -/
def sniffCodes : List String := ["ftyp", "sinf", "wide", "free", "skip", "mdat", "moov", "pnot"]

/-- The default registered container types (spec §6). -/
def containerTypes : List String :=
  ["moov", "trak", "edts", "mdia", "minf", "stbl", "mvex", "moof", "traf", "mfra", "meco",
   "mere", "dinf", "ipro", "sinf", "iprp", "fiin", "paen", "strk", "tapt", "schi"]

/-- The default registered typed leaves and mixed boxes (spec §6), each with its own class. -/
def typedTypes : List (String × Box) :=
  [("ftyp", Box.FTYP), ("mvhd", Box.MVHD), ("tkhd", Box.TKHD), ("meta", Box.META),
   ("hdlr", Box.HDLR), ("mdhd", Box.MDHD), ("pitm", Box.PITM), ("iinf", Box.IINF),
   ("dref", Box.DREF), ("url ", Box.URL), ("urn ", Box.URN), ("iloc", Box.ILOC),
   ("iref", Box.IREF), ("infe", Box.INFE), ("irot", Box.IROT), ("hvcC", Box.HVCC),
   ("dimg", Box.DIMG), ("thmb", Box.THMB), ("cdsc", Box.CDSC), ("colr", Box.COLR),
   ("ispe", Box.ISPE), ("ipma", Box.IPMA), ("pixi", Box.PIXI), ("ipco", Box.IPCO),
   ("stsd", Box.STSD), ("stts", Box.STTS), ("frma", Box.FRMA), ("schm", Box.SCHM)]

/-- The header bytes `size ++ type ++ ext` of one box with a body of
`bodyLength` bytes that ends its parent (spec §4.4): the 32-bit size is the
total size, or is 0 (the box extends to the end), or is 1 and the 8 bytes
`ext` hold the total size. -/
def IsHeaderFor (size ext : List UInt8) (bodyLength : Nat) : Prop :=
  size.length = 4
  ∧ ((ext = [] ∧ (bigEndian size = 8 + bodyLength ∨ bigEndian size = 0))
    ∨ (ext.length = 8 ∧ bigEndian size = 1 ∧ bigEndian ext = 16 + bodyLength))

/-- A parser as the default constructor leaves it, but with an empty registry:
the smallest state the examples start from. -/
def bare : Parser.IMPL :=
  { _file := none, _path := "", _types := [], _stringType := Parser.StringType.NULLTerminated,
    _options := 0, _info := [] }

/-- The parser the default constructor makes: `RegisterDefaultBoxes` run on the
initial members. -/
def fresh : Parser.IMPL := (Parser.IMPL.RegisterDefaultBoxes bare).2

/-- Scenario 1 of the spec (§8): the minimal valid file, one `ftyp` box of 16 bytes. -/
def minimalFile : List UInt8 :=
  [0x00, 0x00, 0x00, 0x10, 0x66, 0x74, 0x79, 0x70, 0x69, 0x73, 0x6F, 0x6D, 0x00, 0x00, 0x00, 0x00]

/-- Scenario 2 of the spec (§8): bytes that are not an ISO media file. -/
def notISOFile : List UInt8 := [0xDE, 0xAD, 0xBE, 0xEF, 0xDE, 0xAD, 0xBE, 0xEF]

/-- The keyed lookup the scan of `CreateBox` is compared with: `find( type )`,
then the same test for an empty function and the same fallback. -/
def CreateBox_keyed (self : Parser.IMPL) (type : String) : Option Box :=
  match self._types.find type with
  | some (some createBox) => createBox ()
  | _ => some (Box.Box type)

/-- The 49 default types: the container types, then the typed ones. -/
def defaultTypes : List String := containerTypes ++ typedTypes.map Prod.fst

/-- The 49 default bindings, in the order `RegisterDefaultBoxes` registers them. -/
def defaultEntries : List (String × Factory) :=
  containerTypes.map (fun t => (t, some (fun _ => some (Box.ContainerBox t))))
    ++ typedTypes.map (fun e => (e.1, some (fun _ => some e.2)))

/-- A registry overridden by the given entries, one `m[ k ] = v` after the other. -/
@[irreducible]
def overridden (m : StdMap Factory) (entries : List (String × Factory)) : StdMap Factory :=
  entries.foldl (fun m e => m.assign e.1 e.2) m

/-- The parser states a program can reach: construction, copy construction and
any sequence of calls of the mutating members, whether they throw or not
(`CreateBox`, `GetFile`, `GetOptions`, `HasOption` are `const` or leave the
object alone). -/
inductive Reachable : Parser.IMPL → Prop where
  | ctor {p : Parser.IMPL} : Parser.ctor = .ok p → Reachable p
  | copy_ctor {o c : Parser.IMPL} : Reachable o → Parser.copy_ctor o = .ok c → Reachable c
  | RegisterBox {p : Parser.IMPL} (type : String) (createBox : Factory) :
      Reachable p → Reachable (Parser.RegisterBox p type createBox).2
  | RegisterContainerBox {p : Parser.IMPL} (type : String) :
      Reachable p → Reachable (Parser.RegisterContainerBox p type).2
  | Parse {p : Parser.IMPL} (ReadData : Parser.ReadDataFn) (stream : BinaryStream) :
      Reachable p → Reachable (Parser.Parse ReadData p stream).2
  | SetPreferredStringType {p : Parser.IMPL} (value : Parser.StringType) :
      Reachable p → Reachable (Parser.SetPreferredStringType p value)
  | SetOptions {p : Parser.IMPL} (value : Nat) : Reachable p → Reachable (Parser.SetOptions p value)
  | AddOption {p : Parser.IMPL} (option : Nat) : Reachable p → Reachable (Parser.AddOption p option)
  | RemoveOption {p : Parser.IMPL} (option : Nat) :
      Reachable p → Reachable (Parser.RemoveOption p option)
  | GetInfo {p : Parser.IMPL} (key : String) : Reachable p → Reachable (Parser.GetInfo p key).2
  | SetInfo {p : Parser.IMPL} (key : String) (value : Nat) :
      Reachable p → Reachable (Parser.SetInfo p key value)

/-! ## Lemmas on std::map -/

theorem charsLt_irrefl (a : List Char) : charsLt a a = false := by
  induction a with
  | nil => rfl
  | cons c cs ih => simp [charsLt, ih]

theorem charsLt_trans : ∀ (a b c : List Char),
    charsLt a b = true → charsLt b c = true → charsLt a c = true
  | _, [], _, h, _ => by cases ‹List Char› <;> simp [charsLt] at h
  | _, _ :: _, [], _, h => by simp [charsLt] at h
  | [], _ :: _, _ :: _, _, _ => by simp [charsLt]
  | x :: xs, y :: ys, z :: zs, h1, h2 => by
    simp only [charsLt, Bool.or_eq_true, decide_eq_true_eq, Bool.and_eq_true, beq_iff_eq] at h1 h2 ⊢
    rcases h1 with h1 | ⟨rfl, h1⟩
    · rcases h2 with h2 | ⟨rfl, _⟩
      · exact Or.inl (lt_trans h1 h2)
      · exact Or.inl h1
    · rcases h2 with h2 | ⟨rfl, h2⟩
      · exact Or.inl h2
      · exact Or.inr ⟨rfl, charsLt_trans xs ys zs h1 h2⟩

theorem charsLt_total : ∀ (a b : List Char),
    charsLt a b = false → charsLt b a = false → a = b
  | [], [], _, _ => rfl
  | [], _ :: _, h, _ => by simp [charsLt] at h
  | _ :: _, [], _, h => by simp [charsLt] at h
  | x :: xs, y :: ys, h1, h2 => by
    simp only [charsLt, Bool.or_eq_false_iff, decide_eq_false_iff_not, Bool.and_eq_false_imp,
      beq_iff_eq] at h1 h2
    have hxy : x = y := le_antisymm (not_lt.mp h2.1) (not_lt.mp h1.1)
    subst hxy
    rw [charsLt_total xs ys (h1.2 rfl) (h2.2 rfl)]

theorem keyLt_irrefl (a : String) : keyLt a a = false := charsLt_irrefl _

theorem keyLt_trans {a b c : String} (h1 : keyLt a b = true) (h2 : keyLt b c = true) :
    keyLt a c = true := charsLt_trans _ _ _ h1 h2

theorem keyLt_total {a b : String} (h1 : keyLt a b = false) (h2 : keyLt b a = false) :
    a = b := String.ext (charsLt_total _ _ h1 h2)

theorem keyLt_ne {a b : String} (h : keyLt a b = true) : a ≠ b := by
  rintro rfl
  rw [keyLt_irrefl] at h
  exact Bool.false_ne_true h

theorem keysSorted_assign {V : Type} (k : String) (v : V) :
    ∀ (l : List (String × V)), KeysSorted l → KeysSorted (assignEntries k v l)
  | [], _ => List.pairwise_singleton _ _
  | p :: rest, h => by
    have hp := List.pairwise_cons.mp h
    unfold assignEntries
    by_cases h1 : keyLt k p.1 = true
    · rw [if_pos h1]
      refine List.pairwise_cons.mpr ⟨?_, h⟩
      intro q hq
      rcases List.mem_cons.mp hq with rfl | hq
      · exact h1
      · exact keyLt_trans h1 (hp.1 q hq)
    · rw [if_neg h1]
      by_cases h2 : p.1 = k
      · rw [if_pos h2]
        refine List.pairwise_cons.mpr ⟨?_, hp.2⟩
        intro q hq
        have := hp.1 q hq
        rwa [h2] at this
      · rw [if_neg h2]
        refine List.pairwise_cons.mpr ⟨?_, keysSorted_assign k v rest hp.2⟩
        have hpk : keyLt p.1 k = true := by
          by_contra h3
          exact h2 (keyLt_total (Bool.eq_false_iff.mpr h3) (Bool.eq_false_iff.mpr h1))
        have hmem : ∀ (l : List (String × V)) (q : String × V),
            q ∈ assignEntries k v l → q = (k, v) ∨ q ∈ l := by
          intro l
          induction l with
          | nil => intro q hq; simpa [assignEntries] using hq
          | cons a l ih =>
            intro q hq
            unfold assignEntries at hq
            split_ifs at hq
            · rcases List.mem_cons.mp hq with rfl | hq
              · exact Or.inl rfl
              · exact Or.inr hq
            · rcases List.mem_cons.mp hq with rfl | hq
              · exact Or.inl rfl
              · exact Or.inr (List.mem_cons_of_mem _ hq)
            · rcases List.mem_cons.mp hq with rfl | hq
              · exact Or.inr (List.mem_cons_self _ _)
              · rcases ih q hq with h | h
                · exact Or.inl h
                · exact Or.inr (List.mem_cons_of_mem _ h)
        intro q hq
        rcases hmem rest q hq with rfl | hq
        · exact hpk
        · exact hp.1 q hq

theorem eraseEntries_sublist {V : Type} (k : String) :
    ∀ (l : List (String × V)), (eraseEntries k l).Sublist l
  | [] => List.Sublist.refl _
  | p :: rest => by
    unfold eraseEntries
    split_ifs
    · exact List.sublist_cons_self _ _
    · exact (eraseEntries_sublist k rest).cons₂ _

theorem keysSorted_erase {V : Type} (k : String) (l : List (String × V)) (h : KeysSorted l) :
    KeysSorted (eraseEntries k l) :=
  List.Pairwise.sublist (eraseEntries_sublist k l) h

theorem findEntries_assign_self {V : Type} (k : String) (v : V) :
    ∀ (l : List (String × V)), findEntries k (assignEntries k v l) = some v
  | [] => by simp [assignEntries, findEntries]
  | p :: rest => by
    unfold assignEntries
    split_ifs with h1 h2
    · simp [findEntries]
    · simp [findEntries]
    · simp [findEntries, h2, findEntries_assign_self k v rest]

theorem findEntries_assign_ne {V : Type} (k u : String) (v : V) (hu : u ≠ k) :
    ∀ (l : List (String × V)), findEntries u (assignEntries k v l) = findEntries u l
  | [] => by simp [assignEntries, findEntries, Ne.symm hu]
  | p :: rest => by
    unfold assignEntries
    split_ifs with h1 h2
    · simp [findEntries, Ne.symm hu]
    · simp [findEntries, Ne.symm hu, h2]
    · by_cases h3 : p.1 = u
      · simp [findEntries, h3]
      · simp [findEntries, h3, findEntries_assign_ne k u v hu rest]

theorem assignEntries_idem {V : Type} (k : String) (v : V) :
    ∀ (l : List (String × V)), assignEntries k v (assignEntries k v l) = assignEntries k v l
  | [] => by simp [assignEntries, keyLt_irrefl]
  | p :: rest => by
    by_cases h1 : keyLt k p.1 = true
    · simp [assignEntries, h1, keyLt_irrefl]
    · by_cases h2 : p.1 = k
      · simp [assignEntries, h1, h2, keyLt_irrefl]
      · simp [assignEntries, h1, h2, assignEntries_idem k v rest]

theorem findEntries_erase_ne {V : Type} (k u : String) (hu : u ≠ k) :
    ∀ (l : List (String × V)), findEntries u (eraseEntries k l) = findEntries u l
  | [] => rfl
  | p :: rest => by
    unfold eraseEntries
    split_ifs with h1
    · simp [findEntries, h1, Ne.symm hu]
    · by_cases h3 : p.1 = u
      · simp [findEntries, h3]
      · simp [findEntries, h3, findEntries_erase_ne k u hu rest]

theorem findEntries_none_of_lt {V : Type} (k : String) :
    ∀ (l : List (String × V)), (∀ q ∈ l, keyLt k q.1 = true) → findEntries k l = none
  | [], _ => rfl
  | p :: rest, h => by
    have hp : p.1 ≠ k := fun e => keyLt_ne (h p (List.mem_cons_self _ _)) e.symm
    simp only [findEntries, hp, if_false]
    exact findEntries_none_of_lt k rest (fun q hq => h q (List.mem_cons_of_mem _ hq))

theorem findEntries_erase_self {V : Type} (k : String) :
    ∀ (l : List (String × V)), KeysSorted l → findEntries k (eraseEntries k l) = none
  | [], _ => rfl
  | p :: rest, h => by
    have hp := List.pairwise_cons.mp h
    unfold eraseEntries
    split_ifs with h1
    · exact findEntries_none_of_lt k rest (fun q hq => h1 ▸ hp.1 q hq)
    · simp only [findEntries, h1, if_false]
      exact findEntries_erase_self k rest hp.2

/-! ## Lemmas on the loop of CreateBox -/

theorem loop_of_find_none (type : String) :
    ∀ (l : List (String × Factory)), findEntries type l = none →
      Parser.CreateBox.loop type l = none
  | [], _ => rfl
  | p :: rest, h => by
    unfold findEntries at h
    split_ifs at h with h1
    have ih := loop_of_find_none type rest h
    unfold Parser.CreateBox.loop
    cases p.2 <;> simp [h1, ih]

theorem loop_of_find_callable (type : String) (f : Unit → Option Box) :
    ∀ (l : List (String × Factory)), findEntries type l = some (some f) →
      Parser.CreateBox.loop type l = some (f ())
  | [], h => by simp [findEntries] at h
  | p :: rest, h => by
    unfold findEntries at h
    unfold Parser.CreateBox.loop
    split_ifs at h with h1
    · have h2 : p.2 = some f := Option.some.inj h
      simp [h1, h2]
    · have ih := loop_of_find_callable type f rest h
      cases p.2 <;> simp [h1, ih]

theorem loop_assign_ne (t u : String) (c : Factory) (hu : u ≠ t) :
    ∀ (l : List (String × Factory)),
      Parser.CreateBox.loop u (assignEntries t c l) = Parser.CreateBox.loop u l
  | [] => by cases c <;> simp [assignEntries, Parser.CreateBox.loop, Ne.symm hu]
  | p :: rest => by
    unfold assignEntries
    split_ifs with h1 h2
    · cases c <;> simp [Parser.CreateBox.loop, Ne.symm hu]
    · have h3 : ¬ p.1 = u := fun e => hu (e.symm.trans h2)
      cases c <;> cases hp : p.2 <;> simp [Parser.CreateBox.loop, Ne.symm hu, hp, h3]
    · have ih := loop_assign_ne t u c hu rest
      cases hp : p.2 <;> simp [Parser.CreateBox.loop, hp, ih]

theorem CreateBox_of_callable (self : Parser.IMPL) (type : String) (f : Unit → Option Box)
    (h : self._types.find type = some (some f)) : Parser.CreateBox self type = f () := by
  unfold Parser.CreateBox
  rw [loop_of_find_callable type f self._types h]

theorem CreateBox_of_absent (self : Parser.IMPL) (type : String)
    (h : self._types.find type = none) : Parser.CreateBox self type = some (Box.Box type) := by
  unfold Parser.CreateBox
  rw [loop_of_find_none type self._types h]

theorem CreateBox_congr (s₁ s₂ : Parser.IMPL) (u : String)
    (h : Parser.CreateBox.loop u s₁._types = Parser.CreateBox.loop u s₂._types) :
    Parser.CreateBox s₁ u = Parser.CreateBox s₂ u := by
  unfold Parser.CreateBox
  rw [h]

theorem RegisterBox_of_four (self : Parser.IMPL) (type : String) (createBox : Factory)
    (h : type.length = 4) :
    Parser.IMPL.RegisterBox self type createBox
      = (.ok (), { self with _types := self._types.assign type createBox }) := by
  simp [Parser.IMPL.RegisterBox, h]

theorem RegisterBox_of_not_four (self : Parser.IMPL) (type : String) (createBox : Factory)
    (h : type.length ≠ 4) :
    Parser.IMPL.RegisterBox self type createBox
      = (.error (.runtime_error "Box name should be 4 characters long"), self) := by
  simp [Parser.IMPL.RegisterBox, h]

theorem findEntries_none_of_not_mem {V : Type} (k : String) :
    ∀ (l : List (String × V)), k ∉ l.map Prod.fst → findEntries k l = none
  | [], _ => rfl
  | p :: rest, h => by
    have hp : ¬ p.1 = k := fun e => h (by simp [e])
    simp only [findEntries, hp, if_false]
    exact findEntries_none_of_not_mem k rest (fun hm => h (by simp [hm]))

theorem findEntries_ne_none_of_mem {V : Type} (k : String) :
    ∀ (l : List (String × V)), k ∈ l.map Prod.fst → findEntries k l ≠ none
  | [], h => by simp at h
  | p :: rest, h => by
    rw [List.map_cons, List.mem_cons] at h
    by_cases hp : p.1 = k
    · simp [findEntries, hp]
    · simp only [findEntries, hp, if_false]
      rcases h with e | e
      · exact absurd e.symm hp
      · exact findEntries_ne_none_of_mem k rest e

/-! ## Lemmas on the options word -/

theorem or_and_self_right (w o : Nat) : (w ||| o) &&& o = o := by
  apply Nat.eq_of_testBit_eq
  intro i
  simp only [Nat.testBit_and, Nat.testBit_or]
  cases w.testBit i <;> cases o.testBit i <;> rfl

theorem testBit_compl64 (o i : Nat) (ho : o < 2 ^ 64) :
    (2 ^ 64 - 1 - o).testBit i = (decide (i < 64) && !o.testBit i) := by
  rw [Nat.sub_sub, Nat.add_comm 1 o]
  exact Nat.testBit_two_pow_sub_succ ho i

theorem and_compl_and_self (w o : Nat) (ho : o < 2 ^ 64) :
    (w &&& (2 ^ 64 - 1 - o)) &&& o = 0 := by
  apply Nat.eq_of_testBit_eq
  intro i
  simp only [Nat.testBit_and, testBit_compl64 o i ho, Nat.zero_testBit]
  cases w.testBit i <;> cases o.testBit i <;> simp

theorem and_compl_lt (w o : Nat) : w &&& (2 ^ 64 - 1 - o) < 2 ^ 64 :=
  Nat.and_lt_two_pow w (by omega)

theorem and_compl_idem (w o : Nat) :
    (w &&& (2 ^ 64 - 1 - o)) &&& (2 ^ 64 - 1 - o) = w &&& (2 ^ 64 - 1 - o) := by
  rw [Nat.and_assoc, Nat.and_self]

theorem or_idem_right (w o : Nat) : (w ||| o) ||| o = w ||| o := by
  rw [Nat.or_assoc, Nat.or_self]

theorem testBit_of_lt_two_pow64 (w i : Nat) (hw : w < 2 ^ 64) (h : w.testBit i = true) :
    i < 64 := by
  by_contra hge
  have hlt : w < 2 ^ i :=
    lt_of_lt_of_le hw (Nat.pow_le_pow_right (by norm_num) (by omega))
  rw [Nat.testBit_lt_two_pow hlt] at h
  exact Bool.false_ne_true h

/-! ## Lemmas on the info map -/

theorem GetInfo_fst (self : Parser.IMPL) (key : String) :
    (Parser.GetInfo self key).1 = (self._info.find key).getD Parser.nullptr := by
  unfold Parser.GetInfo StdMap.subscript
  cases h : self._info.find key <;> simp

theorem GetInfo_snd (self : Parser.IMPL) (key : String) :
    (Parser.GetInfo self key).2 = self := by
  unfold Parser.GetInfo StdMap.subscript
  cases h : self._info.find key <;> simp

/-! ## Lemmas on the sniff of Parse -/

theorem memcmp_eq_zero_iff : ∀ (n : Nat) (a b : List UInt8), a.length = n → b.length = n →
    (memcmp a b n = 0 ↔ a = b)
  | 0, a, b, ha, hb => by
    rw [List.length_eq_zero.mp ha, List.length_eq_zero.mp hb]
    simp [memcmp]
  | n + 1, [], _, ha, _ => by simp at ha
  | n + 1, _ :: _, [], _, hb => by simp at hb
  | n + 1, x :: xs, y :: ys, ha, hb => by
    have ih := memcmp_eq_zero_iff n xs ys (by simpa using ha) (by simpa using hb)
    unfold memcmp
    by_cases h1 : x.toNat < y.toNat
    · have : x ≠ y := fun e => by rw [e] at h1; exact lt_irrefl _ h1
      simp [h1, this]
    · by_cases h2 : y.toNat < x.toNat
      · have : x ≠ y := fun e => by rw [e] at h2; exact lt_irrefl _ h2
        simp [h1, h2, this]
      · have hxy : x = y := UInt8.ext (by omega)
        simp [h1, h2, hxy, ih]

theorem sniff_mismatch_iff (n : List UInt8) (hn : n.length = 4) :
    (memcmp n (cstr "ftyp") 4 ≠ 0
      ∧ memcmp n (cstr "sinf") 4 ≠ 0
      ∧ memcmp n (cstr "wide") 4 ≠ 0
      ∧ memcmp n (cstr "free") 4 ≠ 0
      ∧ memcmp n (cstr "skip") 4 ≠ 0
      ∧ memcmp n (cstr "mdat") 4 ≠ 0
      ∧ memcmp n (cstr "moov") 4 ≠ 0
      ∧ memcmp n (cstr "pnot") 4 ≠ 0) ↔ n ∉ sniffCodes.map cstr := by
  have e : ∀ c : List UInt8, c.length = 4 → (memcmp n c 4 ≠ 0 ↔ n ≠ c) :=
    fun c hc => not_congr (memcmp_eq_zero_iff 4 n c hn hc)
  rw [e (cstr "ftyp") rfl, e (cstr "sinf") rfl, e (cstr "wide") rfl, e (cstr "free") rfl,
    e (cstr "skip") rfl, e (cstr "mdat") rfl, e (cstr "moov") rfl, e (cstr "pnot") rfl]
  simp [sniffCodes]

theorem Get_length (stream : BinaryStream) (buf : List UInt8) (hb : buf.length = 4) :
    (stream.Get buf 4 4).2.length = 4 := by
  unfold BinaryStream.Get
  split_ifs with h1 h2
  · simp [hb]; omega
  · simp [hb]
  · simp [hb]

theorem Get_of_le (stream : BinaryStream) (buf : List UInt8) (hb : buf.length = 4)
    (h : 8 ≤ stream.data.length) :
    (stream.Get buf 4 4).2 = (stream.data.drop 4).take 4 := by
  unfold BinaryStream.Get
  have : buf.drop 4 = [] := List.drop_eq_nil_of_le (by omega)
  simp [h, this]

theorem Parse_no_bytes (rd : Parser.ReadDataFn) (self : Parser.IMPL) (stream : BinaryStream)
    (h : stream.HasBytesAvailable = false) :
    Parser.Parse rd self stream = (.error (.runtime_error "Cannot read file"), self) := by
  unfold Parser.Parse
  simp [h]

theorem Parse_mismatch (rd : Parser.ReadDataFn) (self : Parser.IMPL) (stream : BinaryStream)
    (h : stream.HasBytesAvailable = true)
    (hn : (stream.Get [0, 0, 0, 0] 4 4).2 ∉ sniffCodes.map cstr) :
    Parser.Parse rd self stream
      = (.error (.runtime_error "Data is not an ISO media file"), self) := by
  unfold Parser.Parse
  have hc := (sniff_mismatch_iff _ (Get_length stream [0, 0, 0, 0] rfl)).mpr hn
  simp only [h, Bool.true_eq_false, if_false]
  rw [if_pos hc]

theorem Parse_match (rd : Parser.ReadDataFn) (self : Parser.IMPL) (stream : BinaryStream)
    (h : stream.HasBytesAvailable = true)
    (hn : (stream.Get [0, 0, 0, 0] 4 4).2 ∈ sniffCodes.map cstr) :
    Parser.Parse rd self stream =
      ((match (rd { self with _path := "", _file := some { children := [] } } stream).thrown with
        | none => .ok ()
        | some what => .error (.readData what)),
       { self with
          _path := ""
          _file := some (rd { self with _path := "", _file := some { children := [] } } stream).file
          _info := (rd { self with _path := "", _file := some { children := [] } } stream).info }) := by
  unfold Parser.Parse
  have hc := (not_congr (sniff_mismatch_iff _ (Get_length stream [0, 0, 0, 0] rfl))).mpr
    (not_not.mpr hn)
  simp only [h, Bool.true_eq_false, if_false, if_true]
  rw [if_neg hc]
  cases (rd { self with _path := "", _file := some { children := [] } } stream).thrown <;> rfl

/-! ## Lemmas on the framing -/

theorem readBoxes_at_bound (parser : Parser.IMPL) (data : List UInt8) (fuel offset bound : Nat)
    (h : bound ≤ offset) : readBoxes parser data (fuel + 1) offset bound = .ok [] := by
  unfold readBoxes
  simp [h]

theorem fourCC_ne_uuid (type : List UInt8) (h : type ∈ sniffCodes.map cstr) :
    fourCC type ≠ "uuid" := by
  simp only [sniffCodes, List.map_cons, List.map_nil, List.mem_cons, List.mem_singleton,
    List.not_mem_nil, or_false] at h
  rcases h with rfl | rfl | rfl | rfl | rfl | rfl | rfl | rfl <;> decide

theorem readBoxes_single (parser : Parser.IMPL) (size type ext body : List UInt8) (fuel : Nat)
    (hhdr : IsHeaderFor size ext body.length) (htype : type.length = 4)
    (hsniff : type ∈ sniffCodes.map cstr)
    (habsent : parser._types.find (fourCC type) = none) :
    readBoxes parser (size ++ type ++ ext ++ body) (fuel + 2) 0 (size ++ type ++ ext ++ body).length
      = .ok [BoxNode.mk (Box.Box (fourCC type)) (fourCC type)
          (8 + ext.length + body.length) 0 body []] := by
  obtain ⟨hsize, hform⟩ := hhdr
  have h1 : List.take 4 (List.drop 0 (size ++ type ++ ext ++ body)) = size := by
    simp [List.take_append_of_le_length, hsize]
  have h2 : List.take 4 (List.drop (0 + 4) (size ++ type ++ ext ++ body)) = type := by
    rw [List.append_assoc, List.append_assoc, Nat.zero_add, ← hsize, List.drop_left, hsize,
      ← htype, List.take_left]
  have hu := fourCC_ne_uuid type hsniff
  have hc := CreateBox_of_absent parser (fourCC type) habsent
  rcases hform with ⟨rfl, hdecl⟩ | ⟨hext, hone, hdecl⟩
  · have hlen : (size ++ type ++ [] ++ body).length = 8 + body.length := by
      simp only [List.length_append, hsize, htype, List.length_nil]
    have h3 : List.drop 8 (size ++ type ++ [] ++ body) = body := by
      have : (size ++ type ++ []).length = 8 := by simp [hsize, htype]
      rw [← this, List.drop_left]
    have e1 : ¬ (8 + body.length ≤ 0) := by omega
    have e2 : ¬ (8 + body.length - 0 < 8) := by omega
    have e3 : ¬ (8 + body.length = 1) := by omega
    have e4 : ¬ (8 + body.length = 0) := by omega
    have e5 : ¬ (8 + body.length < 8) := by omega
    have e6 : ¬ (8 + body.length - 0 < 8 + body.length) := by omega
    have e7 : (8 + body.length - 0) = 8 + body.length := by omega
    rw [hlen]
    unfold readBoxes
    rcases hdecl with hdecl | hdecl
    · simp only [h1, h2, hdecl, hu, if_false, Nat.add_zero, hc, e1, e2, e3, e4, e5, e6, false_and,
        Nat.zero_add, Nat.add_sub_cancel_left, h3, List.take_length, List.length_nil,
        readBoxes_at_bound parser _ fuel (8 + body.length) (8 + body.length) (le_refl _)]
    · simp only [h1, h2, hdecl, hu, if_false, if_true, Nat.add_zero, hc, e1, e2, e5, e6, e7,
        false_and, Nat.zero_add, Nat.add_sub_cancel_left, h3, List.take_length, List.length_nil,
        Nat.zero_ne_one, Nat.lt_irrefl,
        readBoxes_at_bound parser _ fuel (8 + body.length) (8 + body.length) (le_refl _)]
  · have hlen : (size ++ type ++ ext ++ body).length = 16 + body.length := by
      simp only [List.length_append, hsize, htype, hext]
    have h3 : List.drop 16 (size ++ type ++ ext ++ body) = body := by
      have : (size ++ type ++ ext).length = 16 := by simp [hsize, htype, hext]
      rw [← this, List.drop_left]
    have h4 : List.take 8 (List.drop (0 + 8) (size ++ type ++ ext ++ body)) = ext := by
      have : (size ++ type).length = 0 + 8 := by simp [hsize, htype]
      rw [List.append_assoc (size ++ type), ← this, List.drop_left, ← hext, List.take_left]
    have e1 : ¬ (16 + body.length ≤ 0) := by omega
    have e2 : ¬ (16 + body.length - 0 < 8) := by omega
    have e3 : ¬ (16 + body.length - 0 < 16) := by omega
    have e5 : ¬ (16 + body.length < 16) := by omega
    have e6 : ¬ (16 + body.length - 0 < 16 + body.length) := by omega
    rw [hlen]
    unfold readBoxes
    simp only [h1, h2, h4, hone, hdecl, hu, hext, if_false, if_true, Nat.add_zero, hc, e1, e2, e3,
      e5, e6, and_false, Nat.zero_add, Nat.add_sub_cancel_left, h3, List.take_length,
      readBoxes_at_bound parser _ fuel (16 + body.length) (16 + body.length) (le_refl _)]

/-! ## The top-level sniff -/

/-- C1: for every parser and every stream of at least 8 bytes read from its
start, `Parse( stream )` throws "Data is not an ISO media file" exactly when
the four bytes at offsets 4..8 are none of the eight codes `ftyp`, `sinf`,
`wide`, `free`, `skip`, `mdat`, `moov`, `pnot` (whatever `File::ReadData`
does: what it throws is not that exception); a stream whose bytes 4..8 are
`ftyp` makes `Parse` throw nothing of its own, and a stream that starts with
`DE AD BE EF DE AD BE EF` is rejected. -/
theorem Parse_notISOMedia_iff (ReadData : Parser.ReadDataFn) (self : Parser.IMPL)
    (stream : BinaryStream) (hpos : stream.pos = 0) (hlen : 8 ≤ stream.data.length) :
    ((Parser.Parse ReadData self stream).1
        = .error (.runtime_error "Data is not an ISO media file")
      ↔ (stream.data.drop 4).take 4 ∉ sniffCodes.map cstr)
    ∧ ((stream.data.drop 4).take 4 = cstr "ftyp" →
        ∀ what, (Parser.Parse ReadData self stream).1 ≠ .error (.runtime_error what))
    ∧ (∀ (fileBacked : Bool) (rest : List UInt8),
        (Parser.Parse ReadData self ⟨notISOFile ++ rest, 0, fileBacked⟩).1
          = .error (.runtime_error "Data is not an ISO media file")) := by
  have key : ∀ st : BinaryStream, st.pos = 0 → 8 ≤ st.data.length →
      ((st.data.drop 4).take 4 ∉ sniffCodes.map cstr →
        (Parser.Parse ReadData self st).1
          = .error (.runtime_error "Data is not an ISO media file"))
      ∧ ((st.data.drop 4).take 4 ∈ sniffCodes.map cstr →
        ∀ what, (Parser.Parse ReadData self st).1 ≠ .error (.runtime_error what)) := by
    intro st hp hl
    have hb : st.HasBytesAvailable = true := by
      simp [BinaryStream.HasBytesAvailable, hp]; omega
    have hg := Get_of_le st [0, 0, 0, 0] rfl hl
    constructor
    · intro h
      rw [Parse_mismatch ReadData self st hb (hg ▸ h)]
    · intro h what
      rw [Parse_match ReadData self st hb (hg ▸ h)]
      cases (ReadData { self with _path := "", _file := some { children := [] } } st).thrown <;>
        simp
  refine ⟨⟨fun h => ?_, (key stream hpos hlen).1⟩, fun h => ?_, fun fb rest => ?_⟩
  · intro hmem
    exact (key stream hpos hlen).2 hmem _ h
  · exact (key stream hpos hlen).2 (by rw [h]; decide)
  · have hd : (List.take 4 (List.drop 4 (notISOFile ++ rest)))
        = ([0xDE, 0xAD, 0xBE, 0xEF] : List UInt8) := rfl
    refine (key ⟨_, 0, fb⟩ rfl (by simp [notISOFile])).1 ?_
    rw [hd]
    decide

/-- C1, at the 8 bytes `DE AD BE EF DE AD BE EF` and at the minimal `ftyp` file. -/
theorem Parse_notISOMedia_iff_witness :
    (Parser.Parse File.ReadData fresh ⟨notISOFile, 0, false⟩).1
        = .error (.runtime_error "Data is not an ISO media file")
    ∧ (Parser.Parse File.ReadData fresh ⟨minimalFile, 0, false⟩).1
        ≠ .error (.runtime_error "Data is not an ISO media file") :=
  ⟨(Parse_notISOMedia_iff File.ReadData fresh ⟨notISOFile, 0, false⟩ rfl (by decide)).1.mpr
      (by decide),
   (Parse_notISOMedia_iff File.ReadData fresh ⟨minimalFile, 0, false⟩ rfl (by decide)).2.1
      (by decide) _⟩

/-- C2 as stated fails: `abcd` is not registered in a freshly constructed
parser, and `Parse` of the stream holding the single box `00 00 00 08 'abcd'`
throws "Data is not an ISO media file", leaving the parser as it was. -/
theorem unknown_type_rejected_by_sniff :
    Parser.IMPL.ctor = .ok fresh
    ∧ fresh._types.find "abcd" = none
    ∧ Parser.Parse_data File.ReadData fresh ([0x00, 0x00, 0x00, 0x08] ++ cstr "abcd")
        = (.error (.runtime_error "Data is not an ISO media file"), fresh) :=
  ⟨rfl, by decide, Parse_mismatch _ _ _ (by decide) (by decide)⟩

/-- C2, amended: for every parser, every 4-byte code `type` with no entry in the
registry and every stream, read from its start, that holds exactly one box of
that type (header `size ++ type ++ ext`, then `body`): if `type` is one of the
eight codes the sniff accepts, `Parse` returns normally and the root has
exactly one child, a generic `Box` carrying `type`; if it is any other code,
`Parse` throws "Data is not an ISO media file" and the parser is unchanged. -/
theorem unknown_top_level_box (self : Parser.IMPL) (size type ext body : List UInt8)
    (fileBacked : Bool) (hhdr : IsHeaderFor size ext body.length) (htype : type.length = 4)
    (habsent : self._types.find (fourCC type) = none) :
    (type ∈ sniffCodes.map cstr →
      Parser.Parse File.ReadData self ⟨size ++ type ++ ext ++ body, 0, fileBacked⟩
        = (.ok (),
           { self with
              _path := ""
              _file := some
                { children :=
                    [BoxNode.mk (Box.Box (fourCC type)) (fourCC type)
                      (8 + ext.length + body.length) 0 body []] } }))
    ∧ (type ∉ sniffCodes.map cstr →
      ∀ ReadData : Parser.ReadDataFn,
        Parser.Parse ReadData self ⟨size ++ type ++ ext ++ body, 0, fileBacked⟩
          = (.error (.runtime_error "Data is not an ISO media file"), self)) := by
  have hsize := hhdr.1
  have hb : (⟨size ++ type ++ ext ++ body, 0, fileBacked⟩ : BinaryStream).HasBytesAvailable
      = true := by
    simp [BinaryStream.HasBytesAvailable, hsize]
  have hg : ((⟨size ++ type ++ ext ++ body, 0, fileBacked⟩ : BinaryStream).Get [0, 0, 0, 0] 4 4).2
      = type := by
    have hl : 8 ≤ (⟨size ++ type ++ ext ++ body, 0, fileBacked⟩ : BinaryStream).data.length := by
      simp only [List.length_append, hsize, htype]; omega
    rw [Get_of_le _ [0, 0, 0, 0] rfl hl]
    show List.take 4 (List.drop 4 (size ++ type ++ ext ++ body)) = type
    rw [List.append_assoc, List.append_assoc, ← hsize, List.drop_left, hsize, ← htype,
      List.take_left]
  constructor
  · intro hs
    rw [Parse_match File.ReadData self _ hb (hg.symm ▸ hs)]
    have hr := readBoxes_single
      { self with _path := "", _file := some { children := [] } } size type ext body
      (size ++ type ++ ext ++ body).length.pred hhdr htype hs habsent
    have hl : (size ++ type ++ ext ++ body).length.pred + 2
        = (size ++ type ++ ext ++ body).length + 1 := by
      simp only [List.length_append, hsize, htype, Nat.pred_eq_sub_one]; omega
    rw [hl] at hr
    simp only [File.ReadData, hr]
  · intro hs rd
    exact Parse_mismatch rd self _ hb (hg.symm ▸ hs)

/-- C2 amended, at a `free` box with a 4-byte body on a freshly constructed
parser, and at an `abcd` box. -/
theorem unknown_top_level_box_witness :
    Parser.Parse File.ReadData fresh
        ⟨[0x00, 0x00, 0x00, 0x0C] ++ cstr "free" ++ [] ++ [1, 2, 3, 4], 0, false⟩
      = (.ok (),
         { fresh with
            _path := ""
            _file := some
              { children :=
                  [BoxNode.mk (Box.Box (fourCC (cstr "free"))) (fourCC (cstr "free"))
                    (8 + ([] : List UInt8).length + [(1 : UInt8), 2, 3, 4].length) 0
                    [1, 2, 3, 4] []] } })
    ∧ Parser.Parse File.ReadData fresh
        ⟨[0x00, 0x00, 0x00, 0x08] ++ cstr "abcd" ++ [] ++ [], 0, false⟩
      = (.error (.runtime_error "Data is not an ISO media file"), fresh) :=
  ⟨(unknown_top_level_box fresh [0x00, 0x00, 0x00, 0x0C] (cstr "free") [] [1, 2, 3, 4] false
      ⟨rfl, Or.inl ⟨rfl, Or.inl (by decide)⟩⟩ rfl (by decide)).1 (by decide),
   (unknown_top_level_box fresh [0x00, 0x00, 0x00, 0x08] (cstr "abcd") [] [] false
      ⟨rfl, Or.inl ⟨rfl, Or.inl (by decide)⟩⟩ rfl (by decide)).2 (by decide) File.ReadData⟩

/-! ## The registry: RegisterBox, RegisterContainerBox, CreateBox -/

/-- C3: `RegisterBox( type, createBox )` throws "Box name should be 4 characters
long" exactly when `type.size() != 4`, and returns normally exactly when it is
4, whatever the parser and the factory; when it throws, the parser (its
registry included) is what it was before the call. -/
theorem RegisterBox_throws_iff (self : Parser.IMPL) (type : String) (createBox : Factory) :
    ((Parser.RegisterBox self type createBox).1
        = .error (.runtime_error "Box name should be 4 characters long") ↔ type.length ≠ 4)
    ∧ ((Parser.RegisterBox self type createBox).1 = .ok () ↔ type.length = 4)
    ∧ (type.length ≠ 4 → (Parser.RegisterBox self type createBox).2 = self) := by
  unfold Parser.RegisterBox
  by_cases h : type.length = 4
  · rw [RegisterBox_of_four self type createBox h]
    simp [h]
  · rw [RegisterBox_of_not_four self type createBox h]
    simp [h]

/-- C3, at a five-character name registered on a parser with an empty registry. -/
theorem RegisterBox_throws_iff_witness :
    (Parser.RegisterBox ⟨none, "", [], .NULLTerminated, 0, []⟩ "ftypx" none).2._types = [] :=
  congrArg Parser.IMPL._types
    ((RegisterBox_throws_iff ⟨none, "", [], .NULLTerminated, 0, []⟩ "ftypx" none).2.2 (by decide))

/-- C4: for every parser, every 4-character `t` and callable factories `f`, `g`:
both `RegisterBox( t, f )` and the following `RegisterBox( t, g )` return
normally and `CreateBox( t )` then returns what `g` produces; registering any
factory a second time leaves the parser as the first registration left it; and
`CreateBox( u )` for every `u ≠ t` is what it was before the two calls. -/
theorem RegisterBox_latest_wins (self : Parser.IMPL) (t : String)
    (f g : Unit → Option Box) (ht : t.length = 4) :
    (Parser.RegisterBox self t (some f)).1 = .ok ()
    ∧ (Parser.RegisterBox (Parser.RegisterBox self t (some f)).2 t (some g)).1 = .ok ()
    ∧ Parser.CreateBox (Parser.RegisterBox (Parser.RegisterBox self t (some f)).2 t (some g)).2 t
        = g ()
    ∧ (∀ c : Factory, (Parser.RegisterBox (Parser.RegisterBox self t c).2 t c).2
        = (Parser.RegisterBox self t c).2)
    ∧ (∀ u : String, u ≠ t →
        Parser.CreateBox (Parser.RegisterBox (Parser.RegisterBox self t (some f)).2 t (some g)).2 u
          = Parser.CreateBox self u) := by
  unfold Parser.RegisterBox
  simp only [RegisterBox_of_four _ t _ ht, true_and]
  refine ⟨?_, ?_, ?_⟩
  · exact CreateBox_of_callable _ t g (findEntries_assign_self t (some g) _)
  · intro c
    simp only [StdMap.assign, assignEntries_idem]
  · intro u hu
    apply CreateBox_congr
    simp only [StdMap.assign]
    rw [loop_assign_ne t u _ hu, loop_assign_ne t u _ hu]

/-- C4, at `ftyp` re-registered twice on a parser whose registry binds `ftyp` and `moov`. -/
theorem RegisterBox_latest_wins_witness :
    Parser.CreateBox
      (Parser.RegisterBox
        (Parser.RegisterBox
          ⟨none, "", [("ftyp", some (fun _ => some Box.FTYP)),
            ("moov", some (fun _ => some (Box.ContainerBox "moov")))], .NULLTerminated, 0, []⟩
          "ftyp" (some (fun _ => some Box.MVHD))).2
        "ftyp" (some (fun _ => some (Box.derived "Custom")))).2 "ftyp"
      = some (Box.derived "Custom") :=
  (RegisterBox_latest_wins
    ⟨none, "", [("ftyp", some (fun _ => some Box.FTYP)),
      ("moov", some (fun _ => some (Box.ContainerBox "moov")))], .NULLTerminated, 0, []⟩
    "ftyp" (fun _ => some Box.MVHD) (fun _ => some (Box.derived "Custom")) (by decide)).2.2.1

/-- C5: `CreateBox` always returns. For a `type` of any length that has no entry
in the registry it returns a new generic `Box` carrying exactly `type`; for a
`type` whose entry is a callable factory it returns what that factory
produces. -/
theorem CreateBox_fallback (self : Parser.IMPL) (type : String) :
    (self._types.find type = none → Parser.CreateBox self type = some (Box.Box type))
    ∧ (∀ f : Unit → Option Box, self._types.find type = some (some f) →
        Parser.CreateBox self type = f ()) :=
  ⟨CreateBox_of_absent self type, fun f h => CreateBox_of_callable self type f h⟩

/-- C5, at a five-character name absent from a registry that binds `ftyp`, and at `ftyp`. -/
theorem CreateBox_fallback_witness :
    Parser.CreateBox
        ⟨none, "", [("ftyp", some (fun _ => some Box.FTYP))], .NULLTerminated, 0, []⟩ "ftypx"
      = some (Box.Box "ftypx")
    ∧ Parser.CreateBox
        ⟨none, "", [("ftyp", some (fun _ => some Box.FTYP))], .NULLTerminated, 0, []⟩ "ftyp"
      = some Box.FTYP :=
  ⟨(CreateBox_fallback
      ⟨none, "", [("ftyp", some (fun _ => some Box.FTYP))], .NULLTerminated, 0, []⟩ "ftypx").1
      (by decide),
   (CreateBox_fallback
      ⟨none, "", [("ftyp", some (fun _ => some Box.FTYP))], .NULLTerminated, 0, []⟩ "ftyp").2
      (fun _ => some Box.FTYP) rfl⟩

/-- C6: the default constructor returns a parser whose registry has exactly 49
keys, the 21 container types and the 28 typed types of the spec and no other;
`CreateBox` of each container type yields a `ContainerBox` carrying that type
and `CreateBox` of each typed type yields an object of its own class, each
through a callable entry of the registry. -/
theorem default_bindings :
    Parser.IMPL.ctor = .ok fresh
    ∧ fresh._types.keys.length = 49
    ∧ containerTypes.length = 21 ∧ typedTypes.length = 28
    ∧ fresh._types.keys.Perm (containerTypes ++ typedTypes.map Prod.fst)
    ∧ (∀ t ∈ containerTypes, Parser.CreateBox fresh t = some (Box.ContainerBox t))
    ∧ (∀ e ∈ typedTypes, Parser.CreateBox fresh e.1 = some e.2)
    ∧ (∀ t ∈ containerTypes ++ typedTypes.map Prod.fst, (fresh._types.find t).join.isSome = true)
    ∧ (∀ t, t ∉ containerTypes → t ∉ typedTypes.map Prod.fst → fresh._types.find t = none) := by
  have hperm : fresh._types.keys.Perm (containerTypes ++ typedTypes.map Prod.fst) := by decide
  refine ⟨rfl, by decide, by decide, by decide, hperm, by decide, by decide, by decide, ?_⟩
  intro t h1 h2
  apply findEntries_none_of_not_mem
  intro hmem
  rcases List.mem_append.mp (hperm.mem_iff.mp hmem) with h | h
  · exact h1 h
  · exact h2 h

/-- C6, at `moov`, at `url ` and at the unregistered `free`. -/
theorem default_bindings_witness :
    Parser.CreateBox fresh "moov" = some (Box.ContainerBox "moov")
    ∧ Parser.CreateBox fresh "url " = some Box.URL
    ∧ fresh._types.find "free" = none :=
  ⟨default_bindings.2.2.2.2.2.1 "moov" (by decide),
   default_bindings.2.2.2.2.2.2.1 ("url ", Box.URL) (by decide),
   default_bindings.2.2.2.2.2.2.2.2 "free" (by decide) (by decide)⟩

/-! ## GetFile -/

/-- C7 as stated fails: on a freshly constructed parser `Parse` of the minimal
`ftyp` file returns normally; the following `Parse` of `DE AD BE EF DE AD BE EF`
throws, and `GetFile` afterwards is not null. -/
theorem GetFile_not_null_after_failed_Parse :
    Parser.IMPL.ctor = .ok fresh
    ∧ (Parser.Parse_data File.ReadData fresh minimalFile).1 = .ok ()
    ∧ (Parser.Parse_data File.ReadData
          (Parser.Parse_data File.ReadData fresh minimalFile).2 notISOFile).1
        = .error (.runtime_error "Data is not an ISO media file")
    ∧ (Parser.GetFile (Parser.Parse_data File.ReadData
          (Parser.Parse_data File.ReadData fresh minimalFile).2 notISOFile).2).isSome = true :=
  ⟨rfl, by decide, by decide, by decide⟩

/-- C7, amended: `GetFile` returns null on a freshly constructed parser, and
registrations, option changes and info changes leave what it returns as it
is; when `Parse` throws one of its own two exceptions (no bytes available, or
the sniff mismatch) `GetFile` afterwards returns what it returned before the
call, null only if it was null before; after a `Parse` that returns normally
it returns the `File` made by that call, as `File::ReadData` populated it. -/
theorem GetFile_after_Parse (ReadData : Parser.ReadDataFn) (self : Parser.IMPL)
    (stream : BinaryStream) :
    (Parser.IMPL.ctor = .ok fresh ∧ Parser.GetFile fresh = none)
    ∧ (∀ (type : String) (createBox : Factory),
        Parser.GetFile (Parser.RegisterBox self type createBox).2 = Parser.GetFile self
        ∧ Parser.GetFile (Parser.RegisterContainerBox self type).2 = Parser.GetFile self)
    ∧ (∀ (key : String) (value : Nat),
        Parser.GetFile (Parser.SetOptions self value) = Parser.GetFile self
        ∧ Parser.GetFile (Parser.AddOption self value) = Parser.GetFile self
        ∧ Parser.GetFile (Parser.RemoveOption self value) = Parser.GetFile self
        ∧ Parser.GetFile (Parser.SetInfo self key value) = Parser.GetFile self
        ∧ Parser.GetFile (Parser.GetInfo self key).2 = Parser.GetFile self)
    ∧ (∀ what, (Parser.Parse ReadData self stream).1 = .error (.runtime_error what) →
        Parser.GetFile (Parser.Parse ReadData self stream).2 = Parser.GetFile self)
    ∧ ((Parser.Parse ReadData self stream).1 = .ok () →
        Parser.GetFile (Parser.Parse ReadData self stream).2
          = some (ReadData { self with _path := "", _file := some { children := [] } }
              stream).file) := by
  refine ⟨⟨rfl, rfl⟩, fun type createBox => ⟨?_, ?_⟩, fun key value => ⟨rfl, rfl, rfl, ?_, ?_⟩,
    ?_, ?_⟩
  · unfold Parser.RegisterBox Parser.IMPL.RegisterBox
    split_ifs <;> rfl
  · unfold Parser.RegisterContainerBox Parser.IMPL.RegisterContainerBox Parser.IMPL.RegisterBox
    split_ifs <;> rfl
  · unfold Parser.SetInfo
    split_ifs <;> rfl
  · rw [GetInfo_snd]
  · intro what h
    by_cases hb : stream.HasBytesAvailable = true
    · by_cases hn : (stream.Get [0, 0, 0, 0] 4 4).2 ∈ sniffCodes.map cstr
      · rw [Parse_match ReadData self stream hb hn] at h
        cases ht : (ReadData { self with _path := "", _file := some { children := [] } }
          stream).thrown <;> simp [ht] at h
      · rw [Parse_mismatch ReadData self stream hb hn]
    · rw [Parse_no_bytes ReadData self stream (Bool.eq_false_iff.mpr hb)]
  · intro h
    by_cases hb : stream.HasBytesAvailable = true
    · by_cases hn : (stream.Get [0, 0, 0, 0] 4 4).2 ∈ sniffCodes.map cstr
      · rw [Parse_match ReadData self stream hb hn]
        rfl
      · rw [Parse_mismatch ReadData self stream hb hn] at h
        simp at h
    · rw [Parse_no_bytes ReadData self stream (Bool.eq_false_iff.mpr hb)] at h
      simp at h

/-- C7 amended, at a fresh parser: `Parse` of `DE AD BE EF DE AD BE EF` throws and
`GetFile` stays null; `Parse` of the minimal `ftyp` file returns the root with
its one child. -/
theorem GetFile_after_Parse_witness :
    Parser.GetFile (Parser.Parse File.ReadData fresh ⟨notISOFile, 0, false⟩).2 = none
    ∧ (Parser.GetFile (Parser.Parse File.ReadData fresh ⟨minimalFile, 0, false⟩).2).map
        (fun f => f.children.length) = some 1 :=
  ⟨(GetFile_after_Parse File.ReadData fresh ⟨notISOFile, 0, false⟩).2.2.2.1
      "Data is not an ISO media file" (by decide),
   (congrArg (Option.map (fun f => f.children.length))
      ((GetFile_after_Parse File.ReadData fresh ⟨minimalFile, 0, false⟩).2.2.2.2
        (by decide))).trans (by decide)⟩

/-- C8: for every parser and every 4-character `T`, `RegisterContainerBox( T )`
returns normally and `CreateBox( T )` then returns a `ContainerBox` carrying
`T`, whatever was bound to `T` before; for every `T` of another length it
throws what `RegisterBox` throws and leaves the parser as it was. -/
theorem RegisterContainerBox_installs (self : Parser.IMPL) (T : String) :
    (T.length = 4 →
      (Parser.RegisterContainerBox self T).1 = .ok ()
      ∧ Parser.CreateBox (Parser.RegisterContainerBox self T).2 T = some (Box.ContainerBox T))
    ∧ (T.length ≠ 4 →
      (Parser.RegisterContainerBox self T).1
          = .error (.runtime_error "Box name should be 4 characters long")
      ∧ (∀ createBox : Factory,
          (Parser.RegisterContainerBox self T).1 = (Parser.RegisterBox self T createBox).1)
      ∧ (Parser.RegisterContainerBox self T).2 = self) := by
  unfold Parser.RegisterContainerBox Parser.IMPL.RegisterContainerBox Parser.RegisterBox
  constructor
  · intro h
    rw [RegisterBox_of_four _ T _ h]
    exact ⟨rfl, CreateBox_of_callable _ T (fun _ => some (Box.ContainerBox T))
      (findEntries_assign_self T _ _)⟩
  · intro h
    rw [RegisterBox_of_not_four _ T _ h]
    refine ⟨rfl, fun c => ?_, rfl⟩
    rw [RegisterBox_of_not_four _ T c h]

/-- C8, at `ftyp` (bound to a typed factory before) and at the 3-character name `ftp`. -/
theorem RegisterContainerBox_installs_witness :
    Parser.CreateBox
        (Parser.RegisterContainerBox
          ⟨none, "", [("ftyp", some (fun _ => some Box.FTYP))], .NULLTerminated, 0, []⟩
          "ftyp").2 "ftyp"
      = some (Box.ContainerBox "ftyp")
    ∧ (Parser.RegisterContainerBox
          ⟨none, "", [("ftyp", some (fun _ => some Box.FTYP))], .NULLTerminated, 0, []⟩
          "ftp").1
      = .error (.runtime_error "Box name should be 4 characters long") :=
  ⟨((RegisterContainerBox_installs
      ⟨none, "", [("ftyp", some (fun _ => some Box.FTYP))], .NULLTerminated, 0, []⟩ "ftyp").1
      (by decide)).2,
   ((RegisterContainerBox_installs
      ⟨none, "", [("ftyp", some (fun _ => some Box.FTYP))], .NULLTerminated, 0, []⟩ "ftp").2
      (by decide)).1⟩

/-! ## Options and the info map -/

/-- C9: for every options word `w` (a `uint64_t`) held by the parser and every
option value `o` (a `uint64_t`) with at least one bit set: `HasOption( o )` is
true after `AddOption( o )` and false after `RemoveOption( o )`; `GetOptions`
is `w | o` after `AddOption( o )` and `w & ~o` after `RemoveOption( o )`, so
every bit outside `o` is unchanged; both calls are idempotent; and a freshly
constructed parser has `GetOptions() == 0`. -/
theorem options_bitset (self : Parser.IMPL) (o : Nat)
    (hw : self._options < 2 ^ 64) (ho : o < 2 ^ 64) (hbit : o ≠ 0) :
    Parser.HasOption (Parser.AddOption self o) o = true
    ∧ Parser.HasOption (Parser.RemoveOption self o) o = false
    ∧ Parser.GetOptions (Parser.AddOption self o) = self._options ||| o
    ∧ Parser.GetOptions (Parser.RemoveOption self o) = self._options &&& (2 ^ 64 - 1 - o)
    ∧ (∀ i, o.testBit i = false →
        (Parser.GetOptions (Parser.AddOption self o)).testBit i
            = (Parser.GetOptions self).testBit i
        ∧ (Parser.GetOptions (Parser.RemoveOption self o)).testBit i
            = (Parser.GetOptions self).testBit i)
    ∧ Parser.AddOption (Parser.AddOption self o) o = Parser.AddOption self o
    ∧ Parser.RemoveOption (Parser.RemoveOption self o) o = Parser.RemoveOption self o
    ∧ (Parser.IMPL.ctor = .ok fresh ∧ Parser.GetOptions fresh = 0) := by
  have hmo : o % 2 ^ 64 = o := Nat.mod_eq_of_lt ho
  have hor : (self._options ||| o) % 2 ^ 64 = self._options ||| o :=
    Nat.mod_eq_of_lt (Nat.or_lt_two_pow hw ho)
  have hand : (self._options &&& (2 ^ 64 - 1 - o)) % 2 ^ 64
      = self._options &&& (2 ^ 64 - 1 - o) :=
    Nat.mod_eq_of_lt (and_compl_lt _ _)
  have hor2 : (self._options ||| o ||| o) % 2 ^ 64 = self._options ||| o := by
    rw [or_idem_right, hor]
  have hand2 : (self._options &&& (2 ^ 64 - 1 - o) &&& (2 ^ 64 - 1 - o)) % 2 ^ 64
      = self._options &&& (2 ^ 64 - 1 - o) := by
    rw [and_compl_idem, hand]
  refine ⟨?_, ?_, ?_, ?_, ?_, ?_, ?_, rfl, rfl⟩
  · simp only [Parser.HasOption, Parser.GetOptions, Parser.AddOption, hmo, hor,
      or_and_self_right]
    simpa using hbit
  · simp only [Parser.HasOption, Parser.GetOptions, Parser.RemoveOption, hmo, hand,
      and_compl_and_self _ _ ho]
    rfl
  · simp only [Parser.GetOptions, Parser.AddOption, hmo, hor]
  · simp only [Parser.GetOptions, Parser.RemoveOption, hmo, hand]
  · intro i hi
    simp only [Parser.GetOptions, Parser.AddOption, Parser.RemoveOption, hmo, hor, hand,
      Nat.testBit_or, Nat.testBit_and, testBit_compl64 o i ho, hi]
    cases hb : self._options.testBit i
    · simp
    · simp [testBit_of_lt_two_pow64 _ i hw hb]
  · simp only [Parser.AddOption, hmo, hor, hor2]
  · simp only [Parser.RemoveOption, hmo, hand, hand2]

/-- C9, at the options word 5 and the option 4 (and the option 2 added to 5). -/
theorem options_bitset_witness :
    Parser.HasOption (Parser.AddOption (Parser.SetOptions fresh 5) 4) 4 = true
    ∧ Parser.HasOption (Parser.RemoveOption (Parser.SetOptions fresh 5) 4) 4 = false
    ∧ Parser.GetOptions (Parser.AddOption (Parser.SetOptions fresh 5) 2) = 7 :=
  ⟨(options_bitset (Parser.SetOptions fresh 5) 4 (by decide) (by decide) (by decide)).1,
   (options_bitset (Parser.SetOptions fresh 5) 4 (by decide) (by decide) (by decide)).2.1,
   (options_bitset (Parser.SetOptions fresh 5) 2 (by decide) (by decide) (by decide)).2.2.1⟩

/-- C10: for every parser whose info map is a `std::map` (keys in order), every
key `k` and non-null `v`: `GetInfo( k )` after `SetInfo( k, v )` returns `v`;
`GetInfo` returns null for a key that has no entry (every key, on a freshly
constructed parser) and for `k` after `SetInfo( k, nullptr )`, which removes
the entry; `SetInfo( k, _ )` leaves what `GetInfo` returns for every other key
unchanged; `GetInfo` leaves the parser, its map included, as it was; and
`SetInfo` keeps the map a `std::map`. -/
theorem info_set_get (self : Parser.IMPL) (k : String) (v : Nat)
    (hv : v ≠ Parser.nullptr) (hs : KeysSorted self._info) :
    (Parser.GetInfo (Parser.SetInfo self k v) k).1 = v
    ∧ (self._info.find k = none → (Parser.GetInfo self k).1 = Parser.nullptr)
    ∧ (Parser.IMPL.ctor = .ok fresh ∧ ∀ key, (Parser.GetInfo fresh key).1 = Parser.nullptr)
    ∧ (Parser.GetInfo (Parser.SetInfo self k Parser.nullptr) k).1 = Parser.nullptr
    ∧ (Parser.SetInfo self k Parser.nullptr)._info.find k = none
    ∧ k ∉ (Parser.SetInfo self k Parser.nullptr)._info.keys
    ∧ (∀ (u : String) (x : Nat), u ≠ k →
        (Parser.GetInfo (Parser.SetInfo self k x) u).1 = (Parser.GetInfo self u).1)
    ∧ (∀ key, (Parser.GetInfo self key).2 = self)
    ∧ KeysSorted (Parser.SetInfo self k v)._info
    ∧ KeysSorted (Parser.SetInfo self k Parser.nullptr)._info := by
  have hfind_set : (Parser.SetInfo self k v)._info.find k = some v := by
    simp only [Parser.SetInfo, hv, if_false]
    exact findEntries_assign_self k v _
  have hfind_null : (Parser.SetInfo self k Parser.nullptr)._info.find k = none := by
    simp only [Parser.SetInfo, if_true]
    exact findEntries_erase_self k _ hs
  refine ⟨?_, ?_, ⟨rfl, fun key => rfl⟩, ?_, hfind_null, ?_, ?_,
    fun key => GetInfo_snd self key, ?_, ?_⟩
  · rw [GetInfo_fst, hfind_set]; rfl
  · intro h
    rw [GetInfo_fst, h]; rfl
  · rw [GetInfo_fst, hfind_null]; rfl
  · intro hmem
    exact findEntries_ne_none_of_mem k _ hmem hfind_null
  · intro u x hu
    rw [GetInfo_fst, GetInfo_fst]
    by_cases hx : x = Parser.nullptr
    · simp only [Parser.SetInfo, hx, if_true]
      exact congrArg (fun r => Option.getD r Parser.nullptr) (findEntries_erase_ne k u hu _)
    · simp only [Parser.SetInfo, hx, if_false]
      exact congrArg (fun r => Option.getD r Parser.nullptr) (findEntries_assign_ne k u x hu _)
  · simp only [Parser.SetInfo, hv, if_false]
    exact keysSorted_assign k v _ hs
  · simp only [Parser.SetInfo, if_true]
    exact keysSorted_erase k _ hs

/-- C10, at the keys `hdlr` and `iinf` on a freshly constructed parser. -/
theorem info_set_get_witness :
    (Parser.GetInfo (Parser.SetInfo (Parser.SetInfo fresh "iinf" 9) "hdlr" 7) "hdlr").1 = 7
    ∧ (Parser.GetInfo (Parser.SetInfo (Parser.SetInfo fresh "iinf" 9) "hdlr" 7) "iinf").1
        = (Parser.GetInfo (Parser.SetInfo fresh "iinf" 9) "iinf").1
    ∧ (Parser.GetInfo (Parser.SetInfo (Parser.SetInfo fresh "iinf" 9) "iinf" Parser.nullptr)
        "iinf").1 = Parser.nullptr :=
  ⟨(info_set_get (Parser.SetInfo fresh "iinf" 9) "hdlr" 7 (by decide) (by decide)).1,
   (info_set_get (Parser.SetInfo fresh "iinf" 9) "hdlr" 7 (by decide) (by decide)).2.2.2.2.2.2.1
      "iinf" 7 (by decide),
   (info_set_get (Parser.SetInfo fresh "iinf" 9) "iinf" 7 (by decide) (by decide)).2.2.2.1⟩

/-! ## Lemmas on RegisterDefaultBoxes and overridden registries -/

theorem runAll_RegisterBox (entries : List (String × Factory)) :
    ∀ (self : Parser.IMPL), (∀ e ∈ entries, e.1.length = 4) →
      Parser.runAll (entries.map (fun e s => Parser.IMPL.RegisterBox s e.1 e.2)) self
        = (.ok (), { self with _types := overridden self._types entries }) := by
  induction entries with
  | nil => intro self _; simp only [overridden, List.foldl_nil]; rfl
  | cons e rest ih =>
    intro self h
    have he : e.1.length = 4 := h e (List.mem_cons_self _ _)
    simp only [List.map_cons, Parser.runAll, RegisterBox_of_four self e.1 e.2 he]
    rw [ih _ (fun q hq => h q (List.mem_cons_of_mem _ hq))]
    simp only [overridden, List.foldl_cons]

theorem RegisterDefaultBoxes_steps (self : Parser.IMPL) :
    Parser.IMPL.RegisterDefaultBoxes self
      = Parser.runAll (defaultEntries.map (fun e s => Parser.IMPL.RegisterBox s e.1 e.2)) self :=
  rfl

theorem RegisterDefaultBoxes_eq (self : Parser.IMPL) :
    Parser.IMPL.RegisterDefaultBoxes self
      = (.ok (), { self with _types := overridden self._types defaultEntries }) := by
  rw [RegisterDefaultBoxes_steps]
  exact runAll_RegisterBox defaultEntries self (by decide)

theorem copy_ctor_eq (o : Parser.IMPL) :
    Parser.copy_ctor o = .ok { o with _types := overridden o._types defaultEntries } := by
  unfold Parser.copy_ctor Parser.IMPL.copy_ctor
  rw [RegisterDefaultBoxes_eq]
  rfl

theorem loop_of_sorted (type : String) :
    ∀ (l : List (String × Factory)), KeysSorted l →
      Parser.CreateBox.loop type l
        = (match findEntries type l with
          | some (some createBox) => some (createBox ())
          | _ => none)
  | [], _ => rfl
  | p :: rest, h => by
    have hp := List.pairwise_cons.mp h
    have ih := loop_of_sorted type rest hp.2
    by_cases h1 : p.1 = type
    · have hnone : findEntries type rest = none :=
        findEntries_none_of_lt type rest (fun q hq => h1 ▸ hp.1 q hq)
      unfold Parser.CreateBox.loop findEntries
      cases h2 : p.2 with
      | none => simp [h1, loop_of_find_none type rest hnone]
      | some f => simp [h1]
    · unfold Parser.CreateBox.loop findEntries
      cases h2 : p.2 <;> simp [h1, ih]

theorem mem_keys_assignEntries {V : Type} (k q : String) (v : V) :
    ∀ (l : List (String × V)),
      q ∈ (assignEntries k v l).map Prod.fst ↔ q = k ∨ q ∈ l.map Prod.fst
  | [] => by simp [assignEntries]
  | p :: rest => by
    unfold assignEntries
    split_ifs with h1 h2
    · simp
    · simp [h2]
    · simp only [List.map_cons, List.mem_cons, mem_keys_assignEntries k q v rest]
      tauto

theorem mem_keys_overridden (q : String) (entries : List (String × Factory)) :
    ∀ (m : StdMap Factory),
      q ∈ (overridden m entries).map Prod.fst ↔ q ∈ m.map Prod.fst ∨ q ∈ entries.map Prod.fst := by
  induction entries with
  | nil => intro m; simp [overridden]
  | cons e rest ih =>
    intro m
    have h := ih (m.assign e.1 e.2)
    simp only [overridden, List.foldl_cons] at h ⊢
    rw [h]
    simp only [StdMap.assign, mem_keys_assignEntries, List.map_cons, List.mem_cons]
    tauto

theorem findEntries_overridden_of_not_mem (t : String) (entries : List (String × Factory)) :
    ∀ (m : StdMap Factory), t ∉ entries.map Prod.fst →
      findEntries t (overridden m entries) = findEntries t m := by
  induction entries with
  | nil => intro m _; simp only [overridden, List.foldl_nil]
  | cons e rest ih =>
    intro m h
    simp only [List.map_cons, List.mem_cons, not_or] at h
    have h2 := ih (m.assign e.1 e.2) h.2
    simp only [overridden, List.foldl_cons] at h2 ⊢
    rw [h2]
    exact findEntries_assign_ne e.1 t e.2 h.1 m

theorem loop_overridden_of_not_mem (t : String) (entries : List (String × Factory)) :
    ∀ (m : StdMap Factory), t ∉ entries.map Prod.fst →
      Parser.CreateBox.loop t (overridden m entries) = Parser.CreateBox.loop t m := by
  induction entries with
  | nil => intro m _; simp only [overridden, List.foldl_nil]
  | cons e rest ih =>
    intro m h
    simp only [List.map_cons, List.mem_cons, not_or] at h
    have h2 := ih (m.assign e.1 e.2) h.2
    simp only [overridden, List.foldl_cons] at h2 ⊢
    rw [h2]
    exact loop_assign_ne e.1 t e.2 h.1 m

theorem findEntries_overridden_congr (t : String) (entries : List (String × Factory)) :
    ∀ (m m₂ : StdMap Factory), t ∈ entries.map Prod.fst →
      findEntries t (overridden m entries) = findEntries t (overridden m₂ entries) := by
  induction entries with
  | nil => intro m m₂ h; simp at h
  | cons e rest ih =>
    intro m m₂ h
    by_cases hr : t ∈ rest.map Prod.fst
    · have h3 := ih (m.assign e.1 e.2) (m₂.assign e.1 e.2) hr
      simp only [overridden, List.foldl_cons] at h3 ⊢
      exact h3
    · have ht : t = e.1 := by
        rw [List.map_cons, List.mem_cons] at h
        rcases h with h1 | h1
        · exact h1
        · exact absurd h1 hr
      have h1 := findEntries_overridden_of_not_mem t rest (m.assign e.1 e.2) hr
      have h2 := findEntries_overridden_of_not_mem t rest (m₂.assign e.1 e.2) hr
      simp only [overridden, List.foldl_cons] at h1 h2 ⊢
      rw [h1, h2, ht]
      simp only [StdMap.assign, findEntries_assign_self]

theorem fresh_types : fresh._types = overridden [] defaultEntries := by
  unfold fresh
  rw [RegisterDefaultBoxes_eq]
  rfl

theorem ctor_eq_fresh : Parser.ctor = .ok fresh := rfl

theorem defaultEntries_keys : defaultEntries.map Prod.fst = defaultTypes := by decide

theorem CreateBox_of_find_eq (s₁ s₂ : Parser.IMPL) (t : String)
    (h : s₁._types.find t = s₂._types.find t) (hc : (s₂._types.find t).join.isSome = true) :
    Parser.CreateBox s₁ t = Parser.CreateBox s₂ t := by
  cases h2 : s₂._types.find t with
  | none => rw [h2] at hc; exact absurd hc (by decide)
  | some c =>
    cases c with
    | none => rw [h2] at hc; exact absurd hc (by decide)
    | some f =>
      rw [CreateBox_of_callable s₂ t f h2, CreateBox_of_callable s₁ t f (h.trans h2)]

theorem fresh_callable : ∀ t ∈ defaultTypes, (fresh._types.find t).join.isSome = true := by
  decide

theorem fresh_CreateBox_container :
    ∀ t ∈ containerTypes, Parser.CreateBox fresh t = some (Box.ContainerBox t) := by decide

theorem fresh_CreateBox_typed :
    ∀ e ∈ typedTypes, Parser.CreateBox fresh e.1 = some e.2 := by decide

theorem Parse_types (rd : Parser.ReadDataFn) (self : Parser.IMPL) (stream : BinaryStream) :
    (Parser.Parse rd self stream).2._types = self._types
    ∧ (Parser.Parse rd self stream).2._stringType = self._stringType
    ∧ (Parser.Parse rd self stream).2._options = self._options := by
  by_cases hb : stream.HasBytesAvailable = true
  · by_cases hn : (stream.Get [0, 0, 0, 0] 4 4).2 ∈ sniffCodes.map cstr
    · rw [Parse_match rd self stream hb hn]
      exact ⟨rfl, rfl, rfl⟩
    · rw [Parse_mismatch rd self stream hb hn]
      exact ⟨rfl, rfl, rfl⟩
  · rw [Parse_no_bytes rd self stream (Bool.eq_false_iff.mpr hb)]
    exact ⟨rfl, rfl, rfl⟩

theorem Parse_of_runtime_error (rd : Parser.ReadDataFn) (self : Parser.IMPL)
    (stream : BinaryStream) (what : String)
    (h : (Parser.Parse rd self stream).1 = .error (.runtime_error what)) :
    (Parser.Parse rd self stream).2 = self := by
  by_cases hb : stream.HasBytesAvailable = true
  · by_cases hn : (stream.Get [0, 0, 0, 0] 4 4).2 ∈ sniffCodes.map cstr
    · rw [Parse_match rd self stream hb hn] at h
      cases ht : (rd { self with _path := "", _file := some { children := [] } }
        stream).thrown <;> simp [ht] at h
    · rw [Parse_mismatch rd self stream hb hn]
  · rw [Parse_no_bytes rd self stream (Bool.eq_false_iff.mpr hb)]

theorem sniffCodes_bytes :
    sniffCodes.map cstr
      = [[0x66, 0x74, 0x79, 0x70], [0x73, 0x69, 0x6E, 0x66], [0x77, 0x69, 0x64, 0x65],
         [0x66, 0x72, 0x65, 0x65], [0x73, 0x6B, 0x69, 0x70], [0x6D, 0x64, 0x61, 0x74],
         [0x6D, 0x6F, 0x6F, 0x76], [0x70, 0x6E, 0x6F, 0x74]] := by decide

theorem Get_short (stream : BinaryStream) (h : stream.data.length < 8) :
    (stream.Get [0, 0, 0, 0] 4 4).1 = .error (.readData "UnexpectedEOF")
    ∧ ∃ filled : List UInt8, filled.length < 4
        ∧ filled = (if stream.fileBacked then (stream.data.drop 4).take 4 else [])
        ∧ (stream.Get [0, 0, 0, 0] 4 4).2 = filled ++ List.replicate (4 - filled.length) 0 := by
  unfold BinaryStream.Get
  have h1 : ¬ (4 + 4 ≤ stream.data.length) := by omega
  simp only [h1, if_false, true_and]
  refine ⟨_, ?_, rfl, ?_⟩
  · split_ifs
    · simp; omega
    · simp
  · have hl : (if stream.fileBacked = true then List.take 4 (List.drop 4 stream.data) else []).length
        < 4 := by
      split_ifs
      · simp; omega
      · simp
    generalize (if stream.fileBacked = true then List.take 4 (List.drop 4 stream.data) else [])
      = got at hl ⊢
    match got, hl with
    | [], _ => rfl
    | [_], _ => rfl
    | [_, _], _ => rfl
    | [_, _, _], _ => rfl
    | _ :: _ :: _ :: _ :: _, hl => simp at hl; omega

theorem partial_not_sniffCode (filled : List UInt8) (h : filled.length < 4) :
    filled ++ List.replicate (4 - filled.length) 0 ∉ sniffCodes.map cstr := by
  rw [sniffCodes_bytes]
  match filled, h with
  | [], _ => decide
  | [a], _ => simp [List.replicate]
  | [a, b], _ => simp [List.replicate]
  | [a, b, c], _ => simp [List.replicate]
  | _ :: _ :: _ :: _ :: _, h => simp at h; omega

theorem cannotRead_ne_notISO :
    (Except.error (Exception.runtime_error "Cannot read file") : Except Exception Unit)
      ≠ .error (.runtime_error "Data is not an ISO media file") := by decide

theorem defaultEntries_length : defaultEntries.length = 49 := by decide

theorem defaultEntries_keys_four : ∀ k ∈ defaultEntries.map Prod.fst, k.length = 4 := by decide

theorem fresh_keys_four : ∀ k ∈ fresh._types.keys, k.length = 4 := by decide

theorem fresh_keys_default : ∀ t ∈ defaultTypes, t ∈ fresh._types.keys := by decide

theorem keysSorted_overridden (entries : List (String × Factory)) :
    ∀ (m : StdMap Factory), KeysSorted m → KeysSorted (overridden m entries) := by
  induction entries with
  | nil => intro m h; simpa only [overridden, List.foldl_nil] using h
  | cons e rest ih =>
    intro m h
    have h2 := ih (m.assign e.1 e.2) (keysSorted_assign e.1 e.2 m h)
    simp only [overridden, List.foldl_cons] at h2 ⊢
    exact h2

theorem fresh_keysSorted : KeysSorted fresh._types := by decide

/-! ## The info map across Parse -/

/-- C11 as stated fails: on a freshly constructed parser with `SetInfo( "hdlr", 7 )`,
`GetInfo( "hdlr" )` still returns 7 after a `Parse` that throws at the sniff
(`DE AD BE EF DE AD BE EF`) and after a `Parse` of the minimal `ftyp` file
that returns normally: the map is not cleared. -/
theorem info_survives_Parse :
    Parser.IMPL.ctor = .ok fresh
    ∧ (7 : Nat) ≠ Parser.nullptr
    ∧ (Parser.GetInfo
        (Parser.Parse_data File.ReadData (Parser.SetInfo fresh "hdlr" 7) notISOFile).2 "hdlr").1
        = 7
    ∧ (Parser.Parse_data File.ReadData (Parser.SetInfo fresh "hdlr" 7) minimalFile).1 = .ok ()
    ∧ (Parser.GetInfo
        (Parser.Parse_data File.ReadData (Parser.SetInfo fresh "hdlr" 7) minimalFile).2 "hdlr").1
        = 7 :=
  ⟨rfl, by decide, by decide, by decide, by decide⟩

/-- C11, amended: `Parse` never clears the info map. For every parser, input and
key: after a `Parse` that throws one of its own two exceptions the map is the
one before the call; in every case the map after `Parse` is either the one
before the call or the one `File::ReadData` left, and `File::ReadData` is
handed the map of before the call; so `GetInfo( key )` after `Parse` returns
what it returned before unless `File::ReadData` itself changed the entry of
`key` (the framing modelled from the spec changes none). -/
theorem Parse_keeps_info (ReadData : Parser.ReadDataFn) (self : Parser.IMPL)
    (stream : BinaryStream) (key : String) :
    (∀ what, (Parser.Parse ReadData self stream).1 = .error (.runtime_error what) →
        (Parser.Parse ReadData self stream).2._info = self._info)
    ∧ ((Parser.Parse ReadData self stream).2._info = self._info
        ∨ (Parser.Parse ReadData self stream).2._info
            = (ReadData { self with _path := "", _file := some { children := [] } } stream).info)
    ∧ ((ReadData { self with _path := "", _file := some { children := [] } } stream).info.find key
          = self._info.find key →
        (Parser.GetInfo (Parser.Parse ReadData self stream).2 key).1
          = (Parser.GetInfo self key).1)
    ∧ (Parser.Parse File.ReadData self stream).2._info = self._info := by
  have hcases : ∀ rd : Parser.ReadDataFn,
      (Parser.Parse rd self stream).2._info = self._info
      ∨ (Parser.Parse rd self stream).2._info
          = (rd { self with _path := "", _file := some { children := [] } } stream).info := by
    intro rd
    by_cases hb : stream.HasBytesAvailable = true
    · by_cases hn : (stream.Get [0, 0, 0, 0] 4 4).2 ∈ sniffCodes.map cstr
      · rw [Parse_match rd self stream hb hn]
        exact Or.inr rfl
      · rw [Parse_mismatch rd self stream hb hn]
        exact Or.inl rfl
    · rw [Parse_no_bytes rd self stream (Bool.eq_false_iff.mpr hb)]
      exact Or.inl rfl
  refine ⟨fun what h => ?_, hcases ReadData, fun h => ?_, ?_⟩
  · rw [Parse_of_runtime_error ReadData self stream what h]
  · rw [GetInfo_fst, GetInfo_fst]
    rcases hcases ReadData with e | e
    · rw [e]
    · rw [e, h]
  · rcases hcases File.ReadData with e | e
    · exact e
    · rw [e]
      unfold File.ReadData
      split <;> rfl

/-- C11 amended, at the key `hdlr` set to 7 on a fresh parser, for the two files. -/
theorem Parse_keeps_info_witness :
    (Parser.Parse File.ReadData (Parser.SetInfo fresh "hdlr" 7) ⟨notISOFile, 0, false⟩).2._info
        = (Parser.SetInfo fresh "hdlr" 7)._info
    ∧ (Parser.GetInfo (Parser.Parse File.ReadData (Parser.SetInfo fresh "hdlr" 7)
          ⟨minimalFile, 0, false⟩).2 "hdlr").1
        = (Parser.GetInfo (Parser.SetInfo fresh "hdlr" 7) "hdlr").1 :=
  ⟨(Parse_keeps_info File.ReadData (Parser.SetInfo fresh "hdlr" 7) ⟨notISOFile, 0, false⟩
      "hdlr").1 "Data is not an ISO media file" (by decide),
   (Parse_keeps_info File.ReadData (Parser.SetInfo fresh "hdlr" 7) ⟨minimalFile, 0, false⟩
      "hdlr").2.2.1 (by decide)⟩

/-! ## The scan of CreateBox -/

/-- C12: for every parser whose registry is a `std::map` (unique keys, in order)
and every `type`, the scan of `CreateBox` over all entries returns what the
keyed lookup returns: `find( type )`, the test for an empty function, and the
generic `Box` of `type` as the fallback. -/
theorem CreateBox_eq_keyed (self : Parser.IMPL) (type : String)
    (hs : KeysSorted self._types) :
    Parser.CreateBox self type = CreateBox_keyed self type := by
  unfold Parser.CreateBox CreateBox_keyed StdMap.find
  rw [loop_of_sorted type self._types hs]
  cases h : findEntries type self._types with
  | none => rfl
  | some c => cases c <;> rfl

/-- C12, at `ftyp` and at the unregistered `free` on a freshly constructed parser. -/
theorem CreateBox_eq_keyed_witness :
    Parser.CreateBox fresh "ftyp" = CreateBox_keyed fresh "ftyp"
    ∧ Parser.CreateBox fresh "free" = CreateBox_keyed fresh "free"
    ∧ CreateBox_keyed fresh "ftyp" = some Box.FTYP
    ∧ CreateBox_keyed fresh "free" = some (Box.Box "free") :=
  ⟨CreateBox_eq_keyed fresh "ftyp" (by decide), CreateBox_eq_keyed fresh "free" (by decide),
   by decide, by decide⟩

/-! ## Failures of Parse before the File is made -/

/-- C13: for every parser and stream, a `Parse` that throws before it makes the
`File` (no bytes available: "Cannot read file"; the buffer `n` after the
swallowed `Get` is none of the eight codes: "Data is not an ISO media file")
returns the parser exactly as it was: file root, path, registry, preferred
string type, options and info map; so `GetFile` still returns the root of an
earlier `Parse`. -/
theorem failed_sniff_atomic (ReadData : Parser.ReadDataFn) (self : Parser.IMPL)
    (stream : BinaryStream) :
    (stream.HasBytesAvailable = false →
      Parser.Parse ReadData self stream = (.error (.runtime_error "Cannot read file"), self))
    ∧ (stream.HasBytesAvailable = true →
      (stream.Get [0, 0, 0, 0] 4 4).2 ∉ sniffCodes.map cstr →
      Parser.Parse ReadData self stream
        = (.error (.runtime_error "Data is not an ISO media file"), self))
    ∧ (∀ what, (Parser.Parse ReadData self stream).1 = .error (.runtime_error what) →
      (Parser.Parse ReadData self stream).2 = self
      ∧ Parser.GetFile (Parser.Parse ReadData self stream).2 = Parser.GetFile self
      ∧ (Parser.Parse ReadData self stream).2._path = self._path
      ∧ (Parser.Parse ReadData self stream).2._types = self._types
      ∧ Parser.GetPreferredStringType (Parser.Parse ReadData self stream).2
          = Parser.GetPreferredStringType self
      ∧ Parser.GetOptions (Parser.Parse ReadData self stream).2 = Parser.GetOptions self
      ∧ (Parser.Parse ReadData self stream).2._info = self._info) := by
  refine ⟨Parse_no_bytes ReadData self stream, Parse_mismatch ReadData self stream,
    fun what h => ?_⟩
  rw [Parse_of_runtime_error ReadData self stream what h]
  exact ⟨rfl, rfl, rfl, rfl, rfl, rfl, rfl⟩

/-- C13, at a parser that parsed the minimal `ftyp` file and is then given
`DE AD BE EF DE AD BE EF` and the empty stream: it stays as it was. -/
theorem failed_sniff_atomic_witness :
    (Parser.Parse File.ReadData (Parser.Parse File.ReadData fresh ⟨minimalFile, 0, false⟩).2
        ⟨notISOFile, 0, false⟩).2
      = (Parser.Parse File.ReadData fresh ⟨minimalFile, 0, false⟩).2
    ∧ Parser.Parse File.ReadData (Parser.Parse File.ReadData fresh ⟨minimalFile, 0, false⟩).2
        ⟨[], 0, false⟩
      = (.error (.runtime_error "Cannot read file"),
         (Parser.Parse File.ReadData fresh ⟨minimalFile, 0, false⟩).2)
    ∧ (Parser.GetFile (Parser.Parse File.ReadData fresh ⟨minimalFile, 0, false⟩).2).isSome
      = true :=
  ⟨((failed_sniff_atomic File.ReadData (Parser.Parse File.ReadData fresh ⟨minimalFile, 0, false⟩).2
      ⟨notISOFile, 0, false⟩).2.2 "Data is not an ISO media file" (by decide)).1,
   (failed_sniff_atomic File.ReadData (Parser.Parse File.ReadData fresh ⟨minimalFile, 0, false⟩).2
      ⟨[], 0, false⟩).1 (by decide),
   by decide⟩

/-- C14: for every parser and every non-empty stream of fewer than 8 bytes read
from its start, file-backed or memory-backed: the positioned read
`Get( n, 4, 4 )` throws, the buffer `n` is then fewer than four bytes of the
stream followed by the zero bytes it was initialised with, it is none of the
eight accepted codes, and `Parse` throws "Data is not an ISO media file",
leaving the parser as it was. -/
theorem short_input_not_ISO (ReadData : Parser.ReadDataFn) (self : Parser.IMPL)
    (stream : BinaryStream) (hpos : stream.pos = 0) (hne : 0 < stream.data.length)
    (hlt : stream.data.length < 8) :
    (stream.Get [0, 0, 0, 0] 4 4).1 = .error (.readData "UnexpectedEOF")
    ∧ (∃ filled : List UInt8, filled.length < 4
        ∧ (stream.Get [0, 0, 0, 0] 4 4).2 = filled ++ List.replicate (4 - filled.length) 0)
    ∧ (stream.Get [0, 0, 0, 0] 4 4).2 ∉ sniffCodes.map cstr
    ∧ Parser.Parse ReadData self stream
        = (.error (.runtime_error "Data is not an ISO media file"), self) := by
  obtain ⟨hthrow, filled, hlen, _, hbuf⟩ := Get_short stream hlt
  have hnot : (stream.Get [0, 0, 0, 0] 4 4).2 ∉ sniffCodes.map cstr := by
    rw [hbuf]
    exact partial_not_sniffCode filled hlen
  have hb : stream.HasBytesAvailable = true := by
    simp [BinaryStream.HasBytesAvailable, hpos, hne]
  exact ⟨hthrow, ⟨filled, hlen, hbuf⟩, hnot, Parse_mismatch ReadData self stream hb hnot⟩

/-- C14, at the 7 bytes `00 00 00 10 'f' 't' 'y'` of a file-backed stream and at
one byte of a memory-backed stream. -/
theorem short_input_not_ISO_witness :
    Parser.Parse File.ReadData fresh ⟨[0x00, 0x00, 0x00, 0x10, 0x66, 0x74, 0x79], 0, true⟩
      = (.error (.runtime_error "Data is not an ISO media file"), fresh)
    ∧ Parser.Parse File.ReadData fresh ⟨[0x66], 0, false⟩
      = (.error (.runtime_error "Data is not an ISO media file"), fresh) :=
  ⟨(short_input_not_ISO File.ReadData fresh ⟨[0x00, 0x00, 0x00, 0x10, 0x66, 0x74, 0x79], 0, true⟩
      rfl (by decide) (by decide)).2.2.2,
   (short_input_not_ISO File.ReadData fresh ⟨[0x66], 0, false⟩ rfl (by decide)
      (by decide)).2.2.2⟩

/-- C15: for every parser and every stream with no bytes available `Parse` throws
"Cannot read file", an exception other than "Data is not an ISO media file",
whatever the bytes of the stream are (none is read or compared), and leaves
the parser as it was; for every stream with bytes available `Parse` itself
never throws "Cannot read file". -/
theorem empty_input_error (ReadData : Parser.ReadDataFn) (self : Parser.IMPL)
    (stream : BinaryStream) :
    (stream.HasBytesAvailable = false →
      Parser.Parse ReadData self stream = (.error (.runtime_error "Cannot read file"), self)
      ∧ (Parser.Parse ReadData self stream).1
          ≠ .error (.runtime_error "Data is not an ISO media file")
      ∧ (∀ other : BinaryStream, other.HasBytesAvailable = false →
          Parser.Parse ReadData self other = Parser.Parse ReadData self stream))
    ∧ (stream.HasBytesAvailable = true →
      (Parser.Parse ReadData self stream).1 ≠ .error (.runtime_error "Cannot read file")) := by
  constructor
  · intro h
    rw [Parse_no_bytes ReadData self stream h]
    exact ⟨rfl, cannotRead_ne_notISO, fun other ho => Parse_no_bytes ReadData self other ho⟩
  · intro hb
    by_cases hn : (stream.Get [0, 0, 0, 0] 4 4).2 ∈ sniffCodes.map cstr
    · rw [Parse_match ReadData self stream hb hn]
      cases (ReadData { self with _path := "", _file := some { children := [] } }
        stream).thrown <;> simp
    · rw [Parse_mismatch ReadData self stream hb hn]
      exact fun e => cannotRead_ne_notISO e.symm

/-- C15, at the empty stream, at a stream read to its end, and at one byte. -/
theorem empty_input_error_witness :
    Parser.Parse File.ReadData fresh ⟨[], 0, false⟩
      = (.error (.runtime_error "Cannot read file"), fresh)
    ∧ Parser.Parse File.ReadData fresh ⟨minimalFile, 16, false⟩
      = Parser.Parse File.ReadData fresh ⟨[], 0, false⟩
    ∧ (Parser.Parse File.ReadData fresh ⟨[0x66], 0, false⟩).1
      ≠ .error (.runtime_error "Cannot read file") :=
  ⟨((empty_input_error File.ReadData fresh ⟨[], 0, false⟩).1 (by decide)).1,
   ((empty_input_error File.ReadData fresh ⟨[], 0, false⟩).1 (by decide)).2.2
      ⟨minimalFile, 16, false⟩ (by decide),
   (empty_input_error File.ReadData fresh ⟨[0x66], 0, false⟩).2 (by decide)⟩

/-! ## Copies and reachable states -/

/-- C16: for every source parser the copy constructor returns a parser whose
registry is the source's registry overridden by the 49 default entries: an
entry under a non-default type is the source's, an entry under a default type
is the default one (so `CreateBox` makes the default `ContainerBox` or typed
object, whatever the source had bound there); file, path, string type, options
and info are the source's. -/
theorem copy_reapplies_defaults (o : Parser.IMPL) :
    ∃ c, Parser.copy_ctor o = .ok c
      ∧ c._types = overridden o._types defaultEntries
      ∧ defaultEntries.length = 49
      ∧ c._file = o._file ∧ c._path = o._path ∧ c._stringType = o._stringType
      ∧ c._options = o._options ∧ c._info = o._info
      ∧ (∀ t, t ∉ defaultTypes →
          c._types.find t = o._types.find t ∧ Parser.CreateBox c t = Parser.CreateBox o t)
      ∧ (∀ t ∈ defaultTypes,
          c._types.find t = fresh._types.find t ∧ Parser.CreateBox c t = Parser.CreateBox fresh t)
      ∧ (∀ t ∈ containerTypes, Parser.CreateBox c t = some (Box.ContainerBox t))
      ∧ (∀ e ∈ typedTypes, Parser.CreateBox c e.1 = some e.2) := by
  have hdef : ∀ t ∈ defaultTypes,
      findEntries t (overridden o._types defaultEntries) = findEntries t fresh._types := by
    intro t ht
    rw [fresh_types]
    exact findEntries_overridden_congr t defaultEntries _ _ (defaultEntries_keys ▸ ht)
  have hcreate : ∀ t ∈ defaultTypes,
      Parser.CreateBox { o with _types := overridden o._types defaultEntries } t
        = Parser.CreateBox fresh t :=
    fun t ht => CreateBox_of_find_eq { o with _types := overridden o._types defaultEntries }
      fresh t (hdef t ht) (fresh_callable t ht)
  refine ⟨{ o with _types := overridden o._types defaultEntries }, copy_ctor_eq o, rfl,
    defaultEntries_length, rfl, rfl, rfl, rfl, rfl, ?_, ?_, ?_, ?_⟩
  · intro t ht
    have ht2 : t ∉ defaultEntries.map Prod.fst := defaultEntries_keys ▸ ht
    refine ⟨findEntries_overridden_of_not_mem t defaultEntries o._types ht2, ?_⟩
    exact CreateBox_congr { o with _types := overridden o._types defaultEntries } o t
      (loop_overridden_of_not_mem t defaultEntries o._types ht2)
  · exact fun t ht => ⟨hdef t ht, hcreate t ht⟩
  · intro t ht
    rw [hcreate t (List.mem_append_left _ ht)]
    exact fresh_CreateBox_container t ht
  · intro e he
    rw [hcreate e.1 (List.mem_append_right _ (List.mem_map_of_mem Prod.fst he))]
    exact fresh_CreateBox_typed e he

/-- C16, at a source that rebound `ftyp` to a custom factory and bound `abcd`:
the copy makes the default `FTYP` again and keeps the binding of `abcd`. -/
theorem copy_reapplies_defaults_witness :
    Parser.CreateBox
        (Parser.RegisterBox
          (Parser.RegisterBox fresh "ftyp" (some (fun _ => some (Box.derived "MyFTYP")))).2
          "abcd" (some (fun _ => some (Box.derived "ABCD")))).2 "ftyp"
      = some (Box.derived "MyFTYP")
    ∧ ∃ c, Parser.copy_ctor
        (Parser.RegisterBox
          (Parser.RegisterBox fresh "ftyp" (some (fun _ => some (Box.derived "MyFTYP")))).2
          "abcd" (some (fun _ => some (Box.derived "ABCD")))).2 = .ok c
      ∧ Parser.CreateBox c "ftyp" = some Box.FTYP
      ∧ Parser.CreateBox c "abcd" = some (Box.derived "ABCD") := by
  refine ⟨by decide, ?_⟩
  obtain ⟨c, hc, _, _, _, _, _, _, _, hother, _, _, htyped⟩ := copy_reapplies_defaults
    (Parser.RegisterBox
      (Parser.RegisterBox fresh "ftyp" (some (fun _ => some (Box.derived "MyFTYP")))).2
      "abcd" (some (fun _ => some (Box.derived "ABCD")))).2
  exact ⟨c, hc, htyped ("ftyp", Box.FTYP) (by decide),
    ((hother "abcd" (by decide)).2).trans (by decide)⟩

/-- C17: in every reachable parser state (construction, copy construction, then
any calls of `RegisterBox`, `RegisterContainerBox`, `Parse`, the option and
info setters, throwing or not) every key of the registry is exactly 4
characters long and each of the 49 default types is a key of the registry;
the registry also keeps its keys unique and in order. -/
theorem registry_key_invariant (p : Parser.IMPL) (hp : Reachable p) :
    (∀ k ∈ p._types.keys, k.length = 4) ∧ (∀ t ∈ defaultTypes, t ∈ p._types.keys)
    ∧ KeysSorted p._types := by
  have hreg : ∀ (s : Parser.IMPL) (type : String) (createBox : Factory),
      ((∀ k ∈ s._types.keys, k.length = 4) ∧ (∀ t ∈ defaultTypes, t ∈ s._types.keys)
        ∧ KeysSorted s._types) →
      ((∀ k ∈ (Parser.IMPL.RegisterBox s type createBox).2._types.keys, k.length = 4)
        ∧ (∀ t ∈ defaultTypes, t ∈ (Parser.IMPL.RegisterBox s type createBox).2._types.keys)
        ∧ KeysSorted (Parser.IMPL.RegisterBox s type createBox).2._types) := by
    intro s type createBox ih
    by_cases h4 : type.length = 4
    · rw [RegisterBox_of_four s type createBox h4]
      refine ⟨?_, ?_, keysSorted_assign type createBox s._types ih.2.2⟩
      · intro k hk
        rcases (mem_keys_assignEntries type k createBox s._types).mp hk with rfl | hk
        · exact h4
        · exact ih.1 k hk
      · intro t ht
        exact (mem_keys_assignEntries type t createBox s._types).mpr (Or.inr (ih.2.1 t ht))
    · rw [RegisterBox_of_not_four s type createBox h4]
      exact ih
  induction hp with
  | @ctor p h =>
    have hp : fresh = p := Except.ok.inj (ctor_eq_fresh.symm.trans h)
    rw [← hp]
    exact ⟨fresh_keys_four, fresh_keys_default, fresh_keysSorted⟩
  | @copy_ctor o c _ h ih =>
    have hc : { o with _types := overridden o._types defaultEntries } = c :=
      Except.ok.inj ((copy_ctor_eq o).symm.trans h)
    rw [← hc]
    refine ⟨?_, ?_, keysSorted_overridden defaultEntries o._types ih.2.2⟩
    · intro k hk
      rcases (mem_keys_overridden k defaultEntries o._types).mp hk with hk | hk
      · exact ih.1 k hk
      · exact defaultEntries_keys_four k hk
    · intro t ht
      exact (mem_keys_overridden t defaultEntries o._types).mpr (Or.inl (ih.2.1 t ht))
  | RegisterBox type createBox _ ih => exact hreg _ type createBox ih
  | RegisterContainerBox type _ ih => exact hreg _ type _ ih
  | Parse ReadData stream _ ih =>
    rw [(Parse_types ReadData _ stream).1]
    exact ih
  | SetPreferredStringType value _ ih => exact ih
  | SetOptions value _ ih => exact ih
  | AddOption option _ ih => exact ih
  | RemoveOption option _ ih => exact ih
  | GetInfo key _ ih =>
    rw [GetInfo_snd]
    exact ih
  | SetInfo key value _ ih =>
    unfold Parser.SetInfo
    split_ifs <;> exact ih

/-- C17, at the state reached by construction, a refused `RegisterBox( "toolong" )`,
`RegisterContainerBox( "abcd" )`, a failed `Parse` and a copy. -/
theorem registry_key_invariant_witness :
    ∃ c, Parser.copy_ctor
        (Parser.Parse File.ReadData
          (Parser.RegisterContainerBox (Parser.RegisterBox fresh "toolong" none).2 "abcd").2
          ⟨notISOFile, 0, false⟩).2 = .ok c
      ∧ (∀ k ∈ c._types.keys, k.length = 4) ∧ (∀ t ∈ defaultTypes, t ∈ c._types.keys)
      ∧ KeysSorted c._types :=
  ⟨_, copy_ctor_eq _, registry_key_invariant _
    (Reachable.copy_ctor
      (Reachable.Parse File.ReadData ⟨notISOFile, 0, false⟩
        (Reachable.RegisterContainerBox "abcd"
          (Reachable.RegisterBox "toolong" none (Reachable.ctor ctor_eq_fresh))))
      (copy_ctor_eq _))⟩

/-- C18: for every parser whose registry is a `std::map` and every 4-character
`t`, `RegisterBox( t, empty function )` returns normally and stores the empty
function under `t`; `CreateBox( t )` afterwards returns the generic `Box`
carrying `t`, whatever was bound to `t` before (a default container or typed
binding included). -/
theorem empty_factory_ignored (self : Parser.IMPL) (t : String) (ht : t.length = 4)
    (hs : KeysSorted self._types) :
    (Parser.RegisterBox self t none).1 = .ok ()
    ∧ (Parser.RegisterBox self t none).2._types.find t = some none
    ∧ t ∈ (Parser.RegisterBox self t none).2._types.keys
    ∧ KeysSorted (Parser.RegisterBox self t none).2._types
    ∧ Parser.CreateBox (Parser.RegisterBox self t none).2 t = some (Box.Box t) := by
  unfold Parser.RegisterBox
  rw [RegisterBox_of_four self t none ht]
  have hfind : findEntries t (assignEntries t (none : Factory) self._types) = some none :=
    findEntries_assign_self t none self._types
  have hsorted := keysSorted_assign t (none : Factory) self._types hs
  refine ⟨rfl, hfind, ?_, hsorted, ?_⟩
  · exact (mem_keys_assignEntries t t none self._types).mpr (Or.inl rfl)
  · show Parser.CreateBox { self with _types := assignEntries t none self._types } t = _
    unfold Parser.CreateBox
    rw [loop_of_sorted t _ hsorted, hfind]

/-- C18, at `ftyp` and `moov` on a freshly constructed parser. -/
theorem empty_factory_ignored_witness :
    Parser.CreateBox fresh "ftyp" = some Box.FTYP
    ∧ Parser.CreateBox (Parser.RegisterBox fresh "ftyp" none).2 "ftyp" = some (Box.Box "ftyp")
    ∧ Parser.CreateBox (Parser.RegisterBox fresh "moov" none).2 "moov" = some (Box.Box "moov") :=
  ⟨by decide,
   (empty_factory_ignored fresh "ftyp" (by decide) (by decide)).2.2.2.2,
   (empty_factory_ignored fresh "moov" (by decide) (by decide)).2.2.2.2⟩

end ISOBMFF
